import Mathlib

/-!
Verification of the arglib argumentation library.

The definitions below are shallow embeddings of the Python sources:

* `src/arglib/semantics/dung.py` (Dung abstract argumentation frameworks),
* `src/arglib/semantics/aba/framework.py` (assumption-based argumentation),
* `src/arglib/core/*.py` (the graph data model and its serialization),
* `src/arglib/reasoning/warrant_gated.py` and `credibility.py`,
* `src/arglib/critique/fragility.py`.

Python `set`/`dict` values are embedded as association lists whose order is
the iteration order of the Python object; Python floats are embedded as exact
rationals where the code only does field arithmetic and as real numbers where
it applies transcendental functions (`exp`, `tanh`).
-/

set_option maxHeartbeats 1000000

namespace Arglib

/-- First-match association-list lookup, the semantics of `dict.get` for a
Python dict embedded with its (unique-key) insertion order. -/
def assocLookup {β : Type} (key : String) : List (String × β) → Option β
  | [] => none
  | (k, v) :: rest => if k = key then some v else assocLookup key rest

/-- Python `dict.get(key, default)`. -/
def assocLookupD {β : Type} (m : List (String × β)) (key : String) (dflt : β) : β :=
  (assocLookup key m).getD dflt

/-- Python helper `_clamp(value, low, high) = max(low, min(high, value))`
(used at several types; the source duplicates it textually per module). -/
def pyClamp {α : Type} [LinearOrder α] (value low high : α) : α :=
  max low (min high value)

/-- Equality of two lists viewed as Python sets (`==` between `set`s). -/
def setEqB {α : Type} [BEq α] (xs ys : List α) : Bool :=
  xs.all (fun x => ys.contains x) && ys.all (fun y => xs.contains y)

/-- `xs <= ys` on Python sets. -/
def subsetB {α : Type} [BEq α] (xs ys : List α) : Bool :=
  xs.all (fun x => ys.contains x)

/-- `xs < ys` on Python sets (strict subset). -/
def strictSubsetB {α : Type} [BEq α] (xs ys : List α) : Bool :=
  subsetB xs ys && !(subsetB ys xs)

/-- `itertools.combinations(l, r)`: all length-`r` subsequences of `l`, in
the order itertools emits them. -/
def combinations {α : Type} : Nat → List α → List (List α)
  | 0, _ => [[]]
  | _ + 1, [] => []
  | r + 1, x :: xs => (combinations r xs).map (fun t => x :: t) ++ combinations (r + 1) xs

/-- `DungAF._powerset`: subsets by increasing size, each size block in
`itertools.combinations` order. -/
def powersetList {α : Type} (items : List α) : List (List α) :=
  (List.range (items.length + 1)).flatMap (fun r => combinations r items)

/-- Python `str.lower()` (ASCII case folding, as both sides only use ASCII
semantics names). -/
def pyToLower (s : String) : String := ⟨s.data.map Char.toLower⟩

/-- Code-point comparison used by Python `<=` on strings. -/
def strLeListB : List Char → List Char → Bool
  | [], _ => true
  | _ :: _, [] => false
  | a :: as, b :: bs =>
    if a.toNat < b.toNat then true
    else if b.toNat < a.toNat then false
    else strLeListB as bs

/-- Python `<=` on strings. -/
def strLeB (a b : String) : Bool := strLeListB a.data b.data

/-- Stable insertion into a sorted list. -/
def insertSorted (x : String) : List String → List String
  | [] => [x]
  | y :: ys => if strLeB x y then x :: y :: ys else y :: insertSorted x ys

/-- Python `sorted()` on strings: the unique sorted arrangement (stable
insertion sort). -/
def sortStrings (l : List String) : List String := l.foldr insertSorted []

/-- `dung.py`: a Dung abstract argumentation framework.  `arguments` embeds
the Python `set` in its iteration order; `attacks` likewise. -/
structure DungAF where
  arguments : List String
  attacks : List (String × String)
  deriving DecidableEq, Repr

/-- `DungAF.attackers_of`. -/
def DungAF.attackersOf (af : DungAF) (arg : String) : List String :=
  (af.attacks.filter (fun p => p.2 == arg)).map Prod.fst

/-- `DungAF.attacks_from`. -/
def DungAF.attacksFrom (af : DungAF) (arg : String) : List String :=
  (af.attacks.filter (fun p => p.1 == arg)).map Prod.snd

/-- `DungAF.conflict_free`. -/
def DungAF.conflictFree (af : DungAF) (ext : List String) : Bool :=
  ext.all (fun a => ext.all (fun b => !(af.attacks.contains (a, b))))

/-- `DungAF.defends`: vacuously true without attackers, otherwise the Python
set comparison `attackers == defended_attackers`. -/
def DungAF.defends (af : DungAF) (ext : List String) (arg : String) : Bool :=
  let attackers := af.attackersOf arg
  if attackers.isEmpty then true
  else
    setEqB attackers
      (attackers.filter (fun attacker =>
        ext.any (fun defender => af.attacks.contains (defender, attacker))))

/-- `DungAF.admissible_sets`: brute-force filter of the full powerset. -/
def DungAF.admissibleSets (af : DungAF) : List (List String) :=
  (powersetList af.arguments).filter (fun ext =>
    af.conflictFree ext && ext.all (fun arg => af.defends ext arg))

/-- `DungAF.complete_extensions`. -/
def DungAF.completeExtensions (af : DungAF) : List (List String) :=
  af.admissibleSets.filter (fun ext =>
    setEqB (af.arguments.filter (fun arg => af.defends ext arg)) ext)

/-- `DungAF.grounded_extension`: `set.intersection(*complete)`, or the empty
set when there is no complete extension. -/
def DungAF.groundedExtension (af : DungAF) : List String :=
  match af.completeExtensions with
  | [] => []
  | e :: rest => rest.foldl (fun acc s => acc.filter (fun x => s.contains x)) e

/-- `DungAF.preferred_extensions`: admissible sets with no strict admissible
superset. -/
def DungAF.preferredExtensions (af : DungAF) : List (List String) :=
  let adm := af.admissibleSets
  adm.filter (fun candidate => !(adm.any (fun other => strictSubsetB candidate other)))

/-- `DungAF.stable_extensions`: conflict-free sets attacking exactly their
complement. -/
def DungAF.stableExtensions (af : DungAF) : List (List String) :=
  (powersetList af.arguments).filter (fun ext =>
    af.conflictFree ext &&
      setEqB (ext.flatMap (fun arg => af.attacksFrom arg))
        (af.arguments.filter (fun a => !(ext.contains a))))

/-- `DungAF.extensions`: dispatch on the lower-cased semantics name; an
unknown name raises `ValueError(f"Unsupported semantics: {semantics}")`. -/
def DungAF.extensions (af : DungAF) (semantics : String) : Except String (List (List String)) :=
  let s := pyToLower semantics
  if s = "grounded" then .ok [af.groundedExtension]
  else if s = "preferred" then .ok af.preferredExtensions
  else if s = "stable" then .ok af.stableExtensions
  else if s = "complete" then .ok af.completeExtensions
  else .error ("Unsupported semantics: " ++ s)

/-- `aba/framework.py`: a Horn rule (`head`, conjunctive `body`). -/
structure Rule where
  head : String
  body : List String
  deriving DecidableEq, Repr

/-- `aba/framework.py`: an assumption-based framework.  `assumptions` embeds
the Python set in iteration order, `contraries` the dict in insertion
order. -/
structure ABAFramework where
  assumptions : List String
  contraries : List (String × String)
  rules : List Rule
  deriving DecidableEq, Repr

/-- One full pass of the `for rule in self.rules` loop inside `_derive`
(later rules see symbols added earlier in the same pass). -/
def derivePass (rules : List Rule) (derived : List String) : List String :=
  rules.foldl
    (fun acc rule =>
      if acc.contains rule.head then acc
      else if rule.body.all (fun term => acc.contains term) then acc ++ [rule.head]
      else acc)
    derived

/-- The `while changed` loop of `_derive`.  A pass either adds at least one
new head or is the last one, so `rules.length + 1` passes reach the Python
fixed point. -/
def deriveLoop (rules : List Rule) : Nat → List String → List String
  | 0, derived => derived
  | n + 1, derived =>
    let next := derivePass rules derived
    if next.length = derived.length then derived else deriveLoop rules n next

/-- `ABAFramework._derive(premises)`: forward-chaining closure. -/
def ABAFramework.derive (fw : ABAFramework) (premises : List String) : List String :=
  deriveLoop fw.rules (fw.rules.length + 1) premises

/-- `ABAFramework._assumption_sets(max_size)`: non-empty combinations of the
sorted assumptions up to the given size. -/
def ABAFramework.assumptionSets (fw : ABAFramework) (maxSize : Nat) : List (List String) :=
  if maxSize < 1 then []
  else
    (List.range maxSize).flatMap (fun i => combinations (i + 1) (sortStrings fw.assumptions))

/-- `ABAFramework._format_assumption_set`: a singleton is its own label, a
larger set is joined with `&` inside braces. -/
def formatAssumptionSet : List String → String
  | [a] => a
  | l => "\x7b" ++ String.intercalate "&" l ++ "\x7d"

/-- Append-if-absent: adding one element to an embedded Python set. -/
def addIfAbsent (l : List String) (x : String) : List String :=
  if l.contains x then l else l ++ [x]

/-- `DungAF.add_attack`: registers both endpoints and the attack pair. -/
def DungAF.addAttack (af : DungAF) (attacker target : String) : DungAF :=
  { arguments := addIfAbsent (addIfAbsent af.arguments attacker) target
    attacks :=
      if af.attacks.contains (attacker, target) then af.attacks
      else af.attacks ++ [(attacker, target)] }

/-- `ABAFramework.to_dung(max_assumption_set_size)` (Python default 2):
for every assumption set whose closure contains some contrary, attack the
owning assumption from the (possibly composite) set label. -/
def ABAFramework.toDung (fw : ABAFramework) (maxAssumptionSetSize : Nat) : DungAF :=
  (fw.assumptionSets maxAssumptionSetSize).foldl
    (fun af attackerSet =>
      let derived := fw.derive attackerSet
      fw.contraries.foldl
        (fun af2 tc =>
          if derived.contains tc.2 then af2.addAttack (formatAssumptionSet attackerSet) tc.1
          else af2)
        af)
    { arguments := fw.assumptions, attacks := [] }

/-- The result dict of `ABAFramework.compute`. -/
structure ABAComputeResult where
  semantics : String
  assumptions : List String
  contraries : List (String × String)
  rules : List Rule
  extensions : List (List String)
  note : String
  deriving DecidableEq, Repr

/-- `ABAFramework.compute(semantics="preferred")`: builds the Dung AF with
the default set-size bound 2 and swallows the engine's `ValueError` into an
empty extension list. -/
def ABAFramework.compute (fw : ABAFramework) (semantics : String) : ABAComputeResult :=
  { semantics := semantics
    assumptions := sortStrings fw.assumptions
    contraries := fw.contraries
    rules := fw.rules
    extensions :=
      match (fw.toDung 2).extensions semantics with
      | .ok exts => exts.map sortStrings
      | .error _ => []
    note := "Computed via a minimal assumption-contrary translation." }

/-- Plain Python values, the codomain of `to_dict`.  Floats are embedded as
exact rationals (serialization performs no arithmetic on them). -/
inductive PyVal where
  | none
  | bool (b : Bool)
  | int (n : Int)
  | float (q : ℚ)
  | str (s : String)
  | tuple (xs : List PyVal)
  | list (xs : List PyVal)
  | dict (kvs : List (String × PyVal))

/-- `data.get(key)` on an embedded dict (`None`, i.e. absence, for other
shapes). -/
def PyVal.get? (v : PyVal) (key : String) : Option PyVal :=
  match v with
  | PyVal.dict kvs => assocLookup key kvs
  | _ => Option.none

/-- Python truthiness of an embedded value (`if metadata.get(...)`). -/
def pyTruthy : PyVal → Bool
  | PyVal.none => false
  | PyVal.bool b => b
  | PyVal.int n => !(n == 0)
  | PyVal.float q => !(q == 0)
  | PyVal.str s => !(s == "")
  | PyVal.tuple xs => !xs.isEmpty
  | PyVal.list xs => !xs.isEmpty
  | PyVal.dict kvs => !kvs.isEmpty

def PyVal.asStr? : PyVal → Option String
  | PyVal.str s => some s
  | _ => Option.none

def PyVal.asInt? : PyVal → Option Int
  | PyVal.int n => some n
  | _ => Option.none

def PyVal.asFloat? : PyVal → Option ℚ
  | PyVal.float q => some q
  | _ => Option.none

/-- Encode an optional string (`None` or the value). -/
def optStr : Option String → PyVal
  | Option.none => PyVal.none
  | some s => PyVal.str s

def optInt : Option Int → PyVal
  | Option.none => PyVal.none
  | some n => PyVal.int n

def optFloat : Option ℚ → PyVal
  | Option.none => PyVal.none
  | some q => PyVal.float q

def optDict : Option (List (String × PyVal)) → PyVal
  | Option.none => PyVal.none
  | some d => PyVal.dict d

/-- Decode `data.get(key)` into an optional string field. -/
def decodeOptStr : Option PyVal → Option (Option String)
  | Option.none => some Option.none
  | some PyVal.none => some Option.none
  | some (PyVal.str s) => some (some s)
  | some _ => Option.none

def decodeOptInt : Option PyVal → Option (Option Int)
  | Option.none => some Option.none
  | some PyVal.none => some Option.none
  | some (PyVal.int n) => some (some n)
  | some _ => Option.none

def decodeOptFloat : Option PyVal → Option (Option ℚ)
  | Option.none => some Option.none
  | some PyVal.none => some Option.none
  | some (PyVal.float q) => some (some q)
  | some _ => Option.none

def decodeOptDict : Option PyVal → Option (Option (List (String × PyVal)))
  | Option.none => some Option.none
  | some PyVal.none => some Option.none
  | some (PyVal.dict d) => some (some d)
  | some _ => Option.none

/-- Decode `data.get(key, {})` into a dict field. -/
def decodeDictD : Option PyVal → Option (List (String × PyVal))
  | Option.none => some []
  | some (PyVal.dict d) => some d
  | some _ => Option.none

/-- Decode `data.get(key, False)` into a bool field (`bool(...)` of the
stored value). -/
def decodeBoolD : Option PyVal → Option Bool
  | Option.none => some false
  | some (PyVal.bool b) => some b
  | some _ => Option.none

/-- Effectful map over a list in the `Option` monad: the embedding of a
Python list comprehension whose element conversion may fail. -/
def mapOption {α β : Type} (f : α → Option β) : List α → Option (List β)
  | [] => some []
  | x :: xs => (f x).bind (fun y => (mapOption f xs).map (fun ys => y :: ys))

/-- `spans.py`: a text span.  The source field `end` is a Lean keyword and
is embedded as `stop`. -/
structure TextSpan where
  doc_id : String
  start : Int
  stop : Int
  text : String
  page : Option Int
  bbox : Option (ℚ × ℚ × ℚ × ℚ)
  modality : String

/-- `evidence.py`: `EvidenceSource = TextSpan | dict[str, Any]`. -/
inductive EvidenceSource where
  | span (s : TextSpan)
  | structured (d : List (String × PyVal))

/-- `evidence.py`: an evidence item.  `stance` keeps the raw string of the
`Literal["supports", "attacks", "neutral"]` annotation. -/
structure EvidenceItem where
  id : String
  source : EvidenceSource
  stance : String
  strength : Option ℚ
  quality : List (String × PyVal)

/-- `evidence.py`: a supporting document. -/
structure SupportingDocument where
  id : String
  name : String
  type : String
  url : String
  trust : Option ℚ
  size : Option ℚ
  upload_date : Option String
  uploader : Option String
  metadata : Option (List (String × PyVal))

/-- `evidence.py`: an evidence card. -/
structure EvidenceCard where
  id : String
  title : String
  supporting_doc_id : String
  excerpt : String
  confidence : ℚ
  metadata : Option (List (String × PyVal))

/-- `units.py`: an argument unit (claim).  The source field `is_axiom` is
embedded as `isAxiom`. -/
structure ArgumentUnit where
  id : String
  text : String
  type : String
  spans : List TextSpan
  evidence : List EvidenceItem
  evidence_ids : List String
  evidence_min : Option ℚ
  evidence_max : Option ℚ
  score : Option ℚ
  isAxiom : Bool
  ignore_influence : Bool
  metadata : List (String × PyVal)

/-- `warrants.py`: a warrant (same shape as a unit minus the clamp bounds).
The source field `is_axiom` is embedded as `isAxiom`. -/
structure Warrant where
  id : String
  text : String
  type : String
  spans : List TextSpan
  evidence : List EvidenceItem
  evidence_ids : List String
  score : Option ℚ
  isAxiom : Bool
  ignore_influence : Bool
  metadata : List (String × PyVal)

/-- `warrants.py`: an attack on a warrant. -/
structure WarrantAttack where
  src : String
  warrant_id : String
  kind : String
  rationale : Option String
  metadata : List (String × PyVal)

/-- `relations.py`: an edge between units. -/
structure Relation where
  src : String
  dst : String
  kind : String
  warrant_ids : List String
  gate_mode : String
  weight : Option ℚ
  rationale : Option String
  metadata : List (String × PyVal)

/-- `bundles.py`: an argument bundle. -/
structure ArgumentBundle where
  id : String
  units : List String
  relations : List Relation
  metadata : List (String × PyVal)

/-- `graph.py`: the aggregate argument graph.  Python dicts are embedded as
association lists in insertion order. -/
structure ArgumentGraph where
  units : List (String × ArgumentUnit)
  warrants : List (String × Warrant)
  relations : List Relation
  warrant_attacks : List WarrantAttack
  metadata : List (String × PyVal)
  evidence_cards : List (String × EvidenceCard)
  supporting_documents : List (String × SupportingDocument)
  argument_bundles : List (String × ArgumentBundle)

/-- Encode the `bbox` tuple field. -/
def encBbox : Option (ℚ × ℚ × ℚ × ℚ) → PyVal
  | Option.none => PyVal.none
  | some (a, b, c, d) =>
    PyVal.tuple [PyVal.float a, PyVal.float b, PyVal.float c, PyVal.float d]

/-- `TextSpan.to_dict`. -/
def TextSpan.toDict (s : TextSpan) : PyVal :=
  PyVal.dict
    [("doc_id", PyVal.str s.doc_id), ("start", PyVal.int s.start),
     ("end", PyVal.int s.stop), ("text", PyVal.str s.text), ("page", optInt s.page),
     ("bbox", encBbox s.bbox),
     ("modality", PyVal.str s.modality)]

/-- `tuple(data["bbox"]) if data.get("bbox") is not None else None`. -/
def decodeBbox : Option PyVal → Option (Option (ℚ × ℚ × ℚ × ℚ))
  | Option.none => some Option.none
  | some PyVal.none => some Option.none
  | some (PyVal.tuple [PyVal.float a, PyVal.float b, PyVal.float c, PyVal.float d]) =>
    some (some (a, b, c, d))
  | some (PyVal.list [PyVal.float a, PyVal.float b, PyVal.float c, PyVal.float d]) =>
    some (some (a, b, c, d))
  | some _ => Option.none

/-- `TextSpan.from_dict`. -/
def TextSpan.fromDict (v : PyVal) : Option TextSpan := do
  let doc_id ← (v.get? "doc_id").bind PyVal.asStr?
  let start ← (v.get? "start").bind PyVal.asInt?
  let stop ← (v.get? "end").bind PyVal.asInt?
  let text ← (v.get? "text").bind PyVal.asStr?
  let page ← decodeOptInt (v.get? "page")
  let bbox ← decodeBbox (v.get? "bbox")
  let modality := ((v.get? "modality").bind PyVal.asStr?).getD "text"
  some ⟨doc_id, start, stop, text, page, bbox, modality⟩

/-- The `source` payload written by `EvidenceItem.to_dict`. -/
def EvidenceSource.toDict : EvidenceSource → PyVal
  | EvidenceSource.span s =>
    PyVal.dict [("type", PyVal.str "text_span"), ("value", s.toDict)]
  | EvidenceSource.structured d =>
    PyVal.dict [("type", PyVal.str "structured"), ("value", PyVal.dict d)]

/-- The branch cascade of `EvidenceItem.from_dict` on the `source` payload. -/
def decodeEvidenceSource (v : PyVal) : Option EvidenceSource :=
  match v with
  | PyVal.dict kvs =>
    match assocLookup "type" kvs with
    | some (PyVal.str "text_span") =>
      match assocLookup "value" kvs with
      | some sv => (TextSpan.fromDict sv).map EvidenceSource.span
      | Option.none => Option.none
    | some (PyVal.str "structured") =>
      match assocLookup "value" kvs with
      | some (PyVal.dict d) => some (EvidenceSource.structured d)
      | Option.none => some (EvidenceSource.structured [])
      | some _ => Option.none
    | _ =>
      match assocLookup "doc_id" kvs with
      | some _ => (TextSpan.fromDict (PyVal.dict kvs)).map EvidenceSource.span
      | Option.none => some (EvidenceSource.structured kvs)
  | _ => Option.none

/-- `EvidenceItem.to_dict`. -/
def EvidenceItem.toDict (e : EvidenceItem) : PyVal :=
  PyVal.dict
    [("id", PyVal.str e.id), ("source", e.source.toDict), ("stance", PyVal.str e.stance),
     ("strength", optFloat e.strength), ("quality", PyVal.dict e.quality)]

/-- `EvidenceItem.from_dict`. -/
def EvidenceItem.fromDict (v : PyVal) : Option EvidenceItem := do
  let id ← (v.get? "id").bind PyVal.asStr?
  let sourceData ← v.get? "source"
  let source ← decodeEvidenceSource sourceData
  let stance ← (v.get? "stance").bind PyVal.asStr?
  let strength ← decodeOptFloat (v.get? "strength")
  let quality ← decodeDictD (v.get? "quality")
  some ⟨id, source, stance, strength, quality⟩

/-- `SupportingDocument.to_dict`. -/
def SupportingDocument.toDict (d : SupportingDocument) : PyVal :=
  PyVal.dict
    [("id", PyVal.str d.id), ("name", PyVal.str d.name), ("type", PyVal.str d.type),
     ("url", PyVal.str d.url), ("trust", optFloat d.trust), ("size", optFloat d.size),
     ("upload_date", optStr d.upload_date), ("uploader", optStr d.uploader),
     ("metadata", optDict d.metadata)]

/-- `SupportingDocument.from_dict`. -/
def SupportingDocument.fromDict (v : PyVal) : Option SupportingDocument := do
  let id ← (v.get? "id").bind PyVal.asStr?
  let name ← (v.get? "name").bind PyVal.asStr?
  let type ← (v.get? "type").bind PyVal.asStr?
  let url ← (v.get? "url").bind PyVal.asStr?
  let trust ← decodeOptFloat (v.get? "trust")
  let size ← decodeOptFloat (v.get? "size")
  let upload_date ← decodeOptStr (v.get? "upload_date")
  let uploader ← decodeOptStr (v.get? "uploader")
  let metadata ← decodeOptDict (v.get? "metadata")
  some ⟨id, name, type, url, trust, size, upload_date, uploader, metadata⟩

/-- `EvidenceCard.to_dict`. -/
def EvidenceCard.toDict (c : EvidenceCard) : PyVal :=
  PyVal.dict
    [("id", PyVal.str c.id), ("title", PyVal.str c.title),
     ("supporting_doc_id", PyVal.str c.supporting_doc_id),
     ("excerpt", PyVal.str c.excerpt), ("confidence", PyVal.float c.confidence),
     ("metadata", optDict c.metadata)]

/-- `EvidenceCard.from_dict`. -/
def EvidenceCard.fromDict (v : PyVal) : Option EvidenceCard := do
  let id ← (v.get? "id").bind PyVal.asStr?
  let title ← (v.get? "title").bind PyVal.asStr?
  let sdi ← (v.get? "supporting_doc_id").bind PyVal.asStr?
  let excerpt ← (v.get? "excerpt").bind PyVal.asStr?
  let confidence ← (v.get? "confidence").bind PyVal.asFloat?
  let metadata ← decodeOptDict (v.get? "metadata")
  some ⟨id, title, sdi, excerpt, confidence, metadata⟩

/-- `ArgumentUnit.to_dict`. -/
def ArgumentUnit.toDict (u : ArgumentUnit) : PyVal :=
  PyVal.dict
    [("id", PyVal.str u.id), ("text", PyVal.str u.text), ("type", PyVal.str u.type),
     ("spans", PyVal.list (u.spans.map TextSpan.toDict)),
     ("evidence", PyVal.list (u.evidence.map EvidenceItem.toDict)),
     ("evidence_ids", PyVal.list (u.evidence_ids.map PyVal.str)),
     ("evidence_min", optFloat u.evidence_min), ("evidence_max", optFloat u.evidence_max),
     ("score", optFloat u.score), ("is_axiom", PyVal.bool u.isAxiom),
     ("ignore_influence", PyVal.bool u.ignore_influence),
     ("metadata", PyVal.dict u.metadata)]

/-- `ArgumentUnit.from_dict`. -/
def ArgumentUnit.fromDict (v : PyVal) : Option ArgumentUnit := do
  let id ← (v.get? "id").bind PyVal.asStr?
  let text ← (v.get? "text").bind PyVal.asStr?
  let type := ((v.get? "type").bind PyVal.asStr?).getD "other"
  let spansRaw :=
    match v.get? "spans" with
    | some (PyVal.list xs) => xs
    | _ => []
  let spans ← mapOption TextSpan.fromDict spansRaw
  let evidenceRaw :=
    match v.get? "evidence" with
    | some (PyVal.list xs) => xs
    | _ => []
  let evidence ← mapOption EvidenceItem.fromDict evidenceRaw
  let evidenceIdsRaw :=
    match v.get? "evidence_ids" with
    | some (PyVal.list xs) => xs
    | _ => []
  let evidence_ids ← mapOption PyVal.asStr? evidenceIdsRaw
  let evidence_min ← decodeOptFloat (v.get? "evidence_min")
  let evidence_max ← decodeOptFloat (v.get? "evidence_max")
  let score ← decodeOptFloat (v.get? "score")
  let isAxiom ← decodeBoolD (v.get? "is_axiom")
  let ignore_influence ← decodeBoolD (v.get? "ignore_influence")
  let metadata ← decodeDictD (v.get? "metadata")
  some ⟨id, text, type, spans, evidence, evidence_ids, evidence_min, evidence_max,
    score, isAxiom, ignore_influence, metadata⟩

/-- `Warrant.to_dict`. -/
def Warrant.toDict (w : Warrant) : PyVal :=
  PyVal.dict
    [("id", PyVal.str w.id), ("text", PyVal.str w.text), ("type", PyVal.str w.type),
     ("spans", PyVal.list (w.spans.map TextSpan.toDict)),
     ("evidence", PyVal.list (w.evidence.map EvidenceItem.toDict)),
     ("evidence_ids", PyVal.list (w.evidence_ids.map PyVal.str)),
     ("score", optFloat w.score), ("is_axiom", PyVal.bool w.isAxiom),
     ("ignore_influence", PyVal.bool w.ignore_influence),
     ("metadata", PyVal.dict w.metadata)]

/-- `Warrant.from_dict`. -/
def Warrant.fromDict (v : PyVal) : Option Warrant := do
  let id ← (v.get? "id").bind PyVal.asStr?
  let text ← (v.get? "text").bind PyVal.asStr?
  let type := ((v.get? "type").bind PyVal.asStr?).getD "other"
  let spansRaw :=
    match v.get? "spans" with
    | some (PyVal.list xs) => xs
    | _ => []
  let spans ← mapOption TextSpan.fromDict spansRaw
  let evidenceRaw :=
    match v.get? "evidence" with
    | some (PyVal.list xs) => xs
    | _ => []
  let evidence ← mapOption EvidenceItem.fromDict evidenceRaw
  let evidenceIdsRaw :=
    match v.get? "evidence_ids" with
    | some (PyVal.list xs) => xs
    | _ => []
  let evidence_ids ← mapOption PyVal.asStr? evidenceIdsRaw
  let score ← decodeOptFloat (v.get? "score")
  let isAxiom ← decodeBoolD (v.get? "is_axiom")
  let ignore_influence ← decodeBoolD (v.get? "ignore_influence")
  let metadata ← decodeDictD (v.get? "metadata")
  some ⟨id, text, type, spans, evidence, evidence_ids, score, isAxiom,
    ignore_influence, metadata⟩

/-- `WarrantAttack.to_dict`. -/
def WarrantAttack.toDict (a : WarrantAttack) : PyVal :=
  PyVal.dict
    [("src", PyVal.str a.src), ("warrant_id", PyVal.str a.warrant_id),
     ("kind", PyVal.str a.kind), ("rationale", optStr a.rationale),
     ("metadata", PyVal.dict a.metadata)]

/-- `WarrantAttack.from_dict`. -/
def WarrantAttack.fromDict (v : PyVal) : Option WarrantAttack := do
  let src ← (v.get? "src").bind PyVal.asStr?
  let warrant_id ← (v.get? "warrant_id").bind PyVal.asStr?
  let kind := ((v.get? "kind").bind PyVal.asStr?).getD "attack"
  let rationale ← decodeOptStr (v.get? "rationale")
  let metadata ← decodeDictD (v.get? "metadata")
  some ⟨src, warrant_id, kind, rationale, metadata⟩

/-- `Relation.to_dict`. -/
def Relation.toDict (r : Relation) : PyVal :=
  PyVal.dict
    [("src", PyVal.str r.src), ("dst", PyVal.str r.dst), ("kind", PyVal.str r.kind),
     ("warrant_ids", PyVal.list (r.warrant_ids.map PyVal.str)),
     ("gate_mode", PyVal.str r.gate_mode), ("weight", optFloat r.weight),
     ("rationale", optStr r.rationale), ("metadata", PyVal.dict r.metadata)]

/-- `Relation.from_dict`. -/
def Relation.fromDict (v : PyVal) : Option Relation := do
  let src ← (v.get? "src").bind PyVal.asStr?
  let dst ← (v.get? "dst").bind PyVal.asStr?
  let kind ← (v.get? "kind").bind PyVal.asStr?
  let warrantIdsRaw :=
    match v.get? "warrant_ids" with
    | some (PyVal.list xs) => xs
    | _ => []
  let warrant_ids ← mapOption PyVal.asStr? warrantIdsRaw
  let gate_mode := ((v.get? "gate_mode").bind PyVal.asStr?).getD "OR"
  let weight ← decodeOptFloat (v.get? "weight")
  let rationale ← decodeOptStr (v.get? "rationale")
  let metadata ← decodeDictD (v.get? "metadata")
  some ⟨src, dst, kind, warrant_ids, gate_mode, weight, rationale, metadata⟩

/-- `ArgumentBundle.to_dict`. -/
def ArgumentBundle.toDict (b : ArgumentBundle) : PyVal :=
  PyVal.dict
    [("id", PyVal.str b.id), ("units", PyVal.list (b.units.map PyVal.str)),
     ("relations", PyVal.list (b.relations.map Relation.toDict)),
     ("metadata", PyVal.dict b.metadata)]

/-- `ArgumentBundle.from_dict`. -/
def ArgumentBundle.fromDict (v : PyVal) : Option ArgumentBundle := do
  let id ← (v.get? "id").bind PyVal.asStr?
  let unitsRaw :=
    match v.get? "units" with
    | some (PyVal.list xs) => xs
    | _ => []
  let units ← mapOption PyVal.asStr? unitsRaw
  let relationsRaw :=
    match v.get? "relations" with
    | some (PyVal.list xs) => xs
    | _ => []
  let relations ← mapOption Relation.fromDict relationsRaw
  let metadata ← decodeDictD (v.get? "metadata")
  some ⟨id, units, relations, metadata⟩

/-- Encode a dict of entities keyed by id (`{k: e.to_dict() for k, e in ...}`). -/
def encodeKeyed {α : Type} (enc : α → PyVal) (kvs : List (String × α)) : PyVal :=
  PyVal.dict (kvs.map (fun kv => (kv.1, enc kv.2)))

/-- Decode a section read with `data.get(section, {})`. -/
def decodeKeyed {α : Type} (dec : PyVal → Option α) (v : Option PyVal) :
    Option (List (String × α)) :=
  match v with
  | some (PyVal.dict kvs) => mapOption (fun kv => (dec kv.2).map (fun x => (kv.1, x))) kvs
  | Option.none => some []
  | some _ => Option.none

/-- Decode a section read with `data.get(section, [])`. -/
def decodeListSection {α : Type} (dec : PyVal → Option α) (v : Option PyVal) :
    Option (List α) :=
  match v with
  | some (PyVal.list xs) => mapOption dec xs
  | Option.none => some []
  | some _ => Option.none

/-- `ArgumentGraph.to_dict`. -/
def ArgumentGraph.toDict (g : ArgumentGraph) : PyVal :=
  PyVal.dict
    [("units", encodeKeyed ArgumentUnit.toDict g.units),
     ("warrants", encodeKeyed Warrant.toDict g.warrants),
     ("relations", PyVal.list (g.relations.map Relation.toDict)),
     ("warrant_attacks", PyVal.list (g.warrant_attacks.map WarrantAttack.toDict)),
     ("metadata", PyVal.dict g.metadata),
     ("evidence_cards", encodeKeyed EvidenceCard.toDict g.evidence_cards),
     ("supporting_documents", encodeKeyed SupportingDocument.toDict g.supporting_documents),
     ("argument_bundles", encodeKeyed ArgumentBundle.toDict g.argument_bundles)]

/-- `ArgumentGraph.from_dict`. -/
def ArgumentGraph.fromDict (v : PyVal) : Option ArgumentGraph := do
  let units ← decodeKeyed ArgumentUnit.fromDict (v.get? "units")
  let warrants ← decodeKeyed Warrant.fromDict (v.get? "warrants")
  let relations ← decodeListSection Relation.fromDict (v.get? "relations")
  let warrant_attacks ← decodeListSection WarrantAttack.fromDict (v.get? "warrant_attacks")
  let metadata ← decodeDictD (v.get? "metadata")
  let evidence_cards ← decodeKeyed EvidenceCard.fromDict (v.get? "evidence_cards")
  let supporting_documents ←
    decodeKeyed SupportingDocument.fromDict (v.get? "supporting_documents")
  let argument_bundles ← decodeKeyed ArgumentBundle.fromDict (v.get? "argument_bundles")
  some ⟨units, warrants, relations, warrant_attacks, metadata, evidence_cards,
    supporting_documents, argument_bundles⟩

/-- Update the binding of `key` in an embedded dict (`self.units[key]` is
mutated in place; keys are unique in a Python dict). -/
def updateAssoc {α : Type} (m : List (String × α)) (key : String) (f : α → α) :
    List (String × α) :=
  match m with
  | [] => []
  | (k, v) :: rest => (if k = key then (k, f v) else (k, v)) :: updateAssoc rest key f

/-- `ArgumentGraph.attach_evidence`: raises `KeyError(f"Unknown unit id:
{unit_id}")` when the unit is missing, otherwise appends a fresh
`EvidenceItem` to the unit's evidence. -/
def ArgumentGraph.attachEvidence (g : ArgumentGraph) (unit_id evidence_id : String)
    (source : EvidenceSource) (stance : String) (strength : Option ℚ)
    (quality : List (String × PyVal)) : Except String (EvidenceItem × ArgumentGraph) :=
  match assocLookup unit_id g.units with
  | Option.none => Except.error ("Unknown unit id: " ++ unit_id)
  | some _ =>
    let item : EvidenceItem := ⟨evidence_id, source, stance, strength, quality⟩
    Except.ok (item,
      { g with
        units := updateAssoc g.units unit_id
          (fun u => { u with evidence := u.evidence ++ [item] }) })

/-- `ArgumentGraph.attach_evidence_to_warrant`: raises `KeyError(f"Unknown
warrant id: {warrant_id}")` when the warrant is missing. -/
def ArgumentGraph.attachEvidenceToWarrant (g : ArgumentGraph)
    (warrant_id evidence_id : String) (source : EvidenceSource) (stance : String)
    (strength : Option ℚ) (quality : List (String × PyVal)) :
    Except String (EvidenceItem × ArgumentGraph) :=
  match assocLookup warrant_id g.warrants with
  | Option.none => Except.error ("Unknown warrant id: " ++ warrant_id)
  | some _ =>
    let item : EvidenceItem := ⟨evidence_id, source, stance, strength, quality⟩
    Except.ok (item,
      { g with
        warrants := updateAssoc g.warrants warrant_id
          (fun w => { w with evidence := w.evidence ++ [item] }) })

/-- `ArgumentGraph.add_warrant_attack`: validates only the target warrant
id; the source unit id is appended without any check. -/
def ArgumentGraph.addWarrantAttack (g : ArgumentGraph) (src warrant_id : String)
    (rationale : Option String) (metadata : List (String × PyVal)) :
    Except String (WarrantAttack × ArgumentGraph) :=
  match assocLookup warrant_id g.warrants with
  | Option.none => Except.error ("Unknown warrant id: " ++ warrant_id)
  | some _ =>
    let attack : WarrantAttack := ⟨src, warrant_id, "attack", rationale, metadata⟩
    Except.ok (attack, { g with warrant_attacks := g.warrant_attacks ++ [attack] })

/-- `ArgumentGraph.attach_evidence_card`: raises on a missing unit id, then
on a missing evidence-card id; otherwise appends an item carrying the
card's confidence and records the card id. -/
def ArgumentGraph.attachEvidenceCard (g : ArgumentGraph) (unit_id evidence_id : String)
    (stance : String) : Except String (EvidenceItem × ArgumentGraph) :=
  match assocLookup unit_id g.units with
  | Option.none => Except.error ("Unknown unit id: " ++ unit_id)
  | some _ =>
    match assocLookup evidence_id g.evidence_cards with
    | Option.none => Except.error ("Unknown evidence card id: " ++ evidence_id)
    | some card =>
      let item : EvidenceItem :=
        ⟨evidence_id, EvidenceSource.structured [("evidence_card_id", PyVal.str evidence_id)],
          stance, some card.confidence, []⟩
      Except.ok (item,
        { g with
          units := updateAssoc g.units unit_id
            (fun u =>
              { u with
                evidence := u.evidence ++ [item],
                evidence_ids :=
                  if u.evidence_ids.contains evidence_id then u.evidence_ids
                  else u.evidence_ids ++ [evidence_id] }) })

/-- A one-unit, one-warrant graph used to instantiate concrete statements. -/
def sampleUnit : ArgumentUnit :=
  ⟨"u1", "Claim one", "other", [], [], [], Option.none, Option.none, Option.none,
    false, false, []⟩

def sampleWarrant : Warrant :=
  ⟨"w1", "Warrant one", "other", [], [], [], Option.none, false, false, []⟩

def sampleGraph : ArgumentGraph :=
  ⟨[("u1", sampleUnit)], [("w1", sampleWarrant)], [], [], [], [], [], []⟩

/-! ### `reasoning/warrant_gated.py`

Evidence aggregation is pure field arithmetic and is embedded over `ℚ`;
scores pass through `_sigmoid` and are embedded over `ℝ`. -/

/-- `WarrantGatedConfig` (defaults
`alpha=1, beta=1, max_iterations=50, epsilon=1e-4, gate_required=True,
clamp_influence=4`). -/
structure WarrantGatedConfig where
  alpha : ℝ
  beta : ℝ
  max_iterations : Nat
  epsilon : ℝ
  gate_required : Bool
  clamp_influence : ℝ

/-- The default `WarrantGatedConfig()`. -/
noncomputable def defaultWarrantGatedConfig : WarrantGatedConfig :=
  ⟨1, 1, 50, 1 / 10000, true, 4⟩

/-- `WarrantGatedResult`. -/
structure WarrantGatedResult where
  evidence_support : List (String × ℚ)
  warrant_evidence_support : List (String × ℚ)
  gate_scores : List (String × ℝ)
  claim_iterations : List (List (String × ℝ))
  warrant_iterations : List (List (String × ℝ))
  final_claim_scores : List (String × ℝ)
  final_warrant_scores : List (String × ℝ)

/-- `_card_score`: stance sign × document trust × card confidence, the last
two clamped into [0,1].  An empty `supporting_doc_id` is falsy in Python. -/
def cardScore (g : ArgumentGraph) (card : EvidenceCard) (stance : String) : ℚ :=
  let sign : ℚ := if stance = "supports" then 1 else if stance = "attacks" then -1 else 0
  let trust : ℚ :=
    if card.supporting_doc_id ≠ "" then
      match assocLookup card.supporting_doc_id g.supporting_documents with
      | some doc =>
        match doc.trust with
        | some t => pyClamp t 0 1
        | Option.none => 1
      | Option.none => 1
    else 1
  sign * trust * pyClamp card.confidence 0 1

/-- `_evidence_item_score`: 0 for a neutral stance, else the card score when
the item id names a card, else sign × clamped strength (default 1.0). -/
def evidenceItemScore (g : ArgumentGraph) (item : EvidenceItem) : ℚ :=
  let sign : ℚ :=
    if item.stance = "supports" then 1 else if item.stance = "attacks" then -1 else 0
  if sign = 0 then 0
  else
    match assocLookup item.id g.evidence_cards with
    | some card => cardScore g card item.stance
    | Option.none =>
      let strength := match item.strength with | some s => s | Option.none => 1
      sign * pyClamp strength 0 1

/-- The first loop of `_evidence_support`: per-item signed scores,
deduplicated by evidence id (returns the scores and the `seen` set). -/
def collectSignedScores (g : ArgumentGraph) :
    List EvidenceItem → List String → List ℚ × List String
  | [], seen => ([], seen)
  | item :: rest, seen =>
    if seen.contains item.id then collectSignedScores g rest seen
    else
      let out := collectSignedScores g rest (seen ++ [item.id])
      (evidenceItemScore g item :: out.1, out.2)

/-- The second loop of `_evidence_support`: card scores for unseen
`evidence_ids` (a missing card is skipped without touching `seen`). -/
def collectCardScores (g : ArgumentGraph) : List String → List String → List ℚ
  | [], _ => []
  | eid :: rest, seen =>
    if seen.contains eid then collectCardScores g rest seen
    else
      match assocLookup eid g.evidence_cards with
      | Option.none => collectCardScores g rest seen
      | some card => cardScore g card "supports" :: collectCardScores g rest (seen ++ [eid])

/-- `_evidence_support(node, graph)`: the average of the deduplicated signed
scores, clamped to the fixed interval [-1, 1] (0.0 without evidence). -/
def evidenceSupport (g : ArgumentGraph) (evidence : List EvidenceItem)
    (evidence_ids : List String) : ℚ :=
  let itemsOut := collectSignedScores g evidence []
  let scores := itemsOut.1 ++ collectCardScores g evidence_ids itemsOut.2
  if scores.isEmpty then 0
  else pyClamp (scores.sum / (scores.length : ℚ)) (-1) 1

/-- Modelled from the claim's words, for comparison with `evidenceSupport`:
the same average of deduplicated signed contributions, but clamped to the
unit's configured `[evidence_min, evidence_max]` bounds (default [-1, 1]). -/
def specConfiguredEvidenceSupport (g : ArgumentGraph) (u : ArgumentUnit) : ℚ :=
  let itemsOut := collectSignedScores g u.evidence []
  let scores := itemsOut.1 ++ collectCardScores g u.evidence_ids itemsOut.2
  if scores.isEmpty then 0
  else
    pyClamp (scores.sum / (scores.length : ℚ))
      (match u.evidence_min with | some m => m | Option.none => -1)
      (match u.evidence_max with | some m => m | Option.none => 1)

/-- The axiom override of step 1: `clamp(float(score or 0.0), -1, 1)`. -/
def axiomBase (score : Option ℚ) : ℚ :=
  pyClamp (match score with | some s => s | Option.none => 0) (-1) 1

/-- The in-place dict overwrites `ev[id] = base` performed for axioms after
the initial comprehension. -/
def axiomOverride {α : Type} (isAx : α → Bool) (base : α → ℚ)
    (entries : List (String × α)) (ev : List (String × ℚ)) : List (String × ℚ) :=
  entries.foldl
    (fun acc kv => if isAx kv.2 then updateAssoc acc kv.1 (fun _ => base kv.2) else acc)
    ev

/-- Step 1 of `compute_warrant_gated_scores` for claims: per-unit evidence
support, with axioms overridden by their own clamped declared score. -/
def claimEvidence (g : ArgumentGraph) : List (String × ℚ) :=
  axiomOverride (fun u => u.isAxiom) (fun u => axiomBase u.score) g.units
    (g.units.map (fun kv => (kv.1, evidenceSupport g kv.2.evidence kv.2.evidence_ids)))

/-- Step 1 for warrants. -/
def warrantEvidence (g : ArgumentGraph) : List (String × ℚ) :=
  axiomOverride (fun w => w.isAxiom) (fun w => axiomBase w.score) g.warrants
    (g.warrants.map (fun kv => (kv.1, evidenceSupport g kv.2.evidence kv.2.evidence_ids)))

/-- `_sigmoid(value) = 1 / (1 + exp(-value))`. -/
noncomputable def pySigmoid (value : ℝ) : ℝ := 1 / (1 + Real.exp (-value))

/-- Step 2: initial score `sigmoid(alpha * evidence)` per node. -/
noncomputable def initScores (cfg : WarrantGatedConfig) (ev : List (String × ℚ)) :
    List (String × ℝ) :=
  ev.map (fun kv => (kv.1, pySigmoid (cfg.alpha * (kv.2 : ℝ))))

/-- Python `min(values)` (the call sites guard against the empty list). -/
noncomputable def listMin : List ℝ → ℝ
  | [] => 0
  | x :: xs => xs.foldl min x

/-- Python `max(values)`. -/
noncomputable def listMax : List ℝ → ℝ
  | [] => 0
  | x :: xs => xs.foldl max x

/-- `unit_id in ignore_units` (the set of units flagged
`ignore_influence`). -/
def unitIgnored (g : ArgumentGraph) (uid : String) : Bool :=
  g.units.any (fun kv => kv.1 == uid && kv.2.ignore_influence)

/-- `warrant_id in ignore_warrants`. -/
def warrantIgnored (g : ArgumentGraph) (wid : String) : Bool :=
  g.warrants.any (fun kv => kv.1 == wid && kv.2.ignore_influence)

/-- `_update_warrants`: influence is the sum of the negated current scores
of attackers (zero for `ignore_influence` warrants), clamped and mixed with
the evidence through the sigmoid. -/
noncomputable def updateWarrants (g : ArgumentGraph) (warrant_ev : List (String × ℚ))
    (claim_scores : List (String × ℝ)) (cfg : WarrantGatedConfig) : List (String × ℝ) :=
  g.warrants.map (fun kv =>
    let ev : ℝ := (assocLookupD warrant_ev kv.1 0 : ℚ)
    let influence : ℝ :=
      if warrantIgnored g kv.1 then 0
      else
        ((g.warrant_attacks.filter (fun a => a.warrant_id == kv.1)).map
          (fun a => -(assocLookupD claim_scores a.src 0))).sum
    (kv.1,
      pySigmoid (cfg.alpha * ev +
        cfg.beta * pyClamp influence (-cfg.clamp_influence) cfg.clamp_influence)))

/-- `_gate_scores`: keyed `e<index>` per relation; 0 when `gate_disabled`
is truthy; without warrants 0/1 according to `gate_required`; otherwise the
min (AND) or max (otherwise) of the cited warrants' scores (missing ids
default to 0.5). -/
noncomputable def gateScores (g : ArgumentGraph) (warrant_scores : List (String × ℝ))
    (cfg : WarrantGatedConfig) : List (String × ℝ) :=
  g.relations.enum.map (fun ir =>
    ("e" ++ toString ir.1,
      if pyTruthy ((assocLookup "gate_disabled" ir.2.metadata).getD PyVal.none) then 0
      else if ir.2.warrant_ids.isEmpty then (if cfg.gate_required then 0 else 1)
      else
        let values := ir.2.warrant_ids.map
          (fun wid => assocLookupD warrant_scores wid (1 / 2))
        if ir.2.gate_mode = "AND" then listMin values else listMax values))

/-- `_update_claims`: signed gated influence summed over incoming relations
(zero for `ignore_influence` claims). -/
noncomputable def updateClaims (g : ArgumentGraph) (claim_ev : List (String × ℚ))
    (claim_scores gs : List (String × ℝ)) (cfg : WarrantGatedConfig) : List (String × ℝ) :=
  g.units.map (fun kv =>
    let ev : ℝ := (assocLookupD claim_ev kv.1 0 : ℚ)
    let influence : ℝ :=
      if unitIgnored g kv.1 then 0
      else
        ((g.relations.enum.filter (fun ir => ir.2.dst == kv.1)).map
          (fun ir =>
            (if ir.2.kind = "support" then (1 : ℝ) else -1) *
              assocLookupD claim_scores ir.2.src 0 *
              assocLookupD gs ("e" ++ toString ir.1) 0)).sum
    (kv.1,
      pySigmoid (cfg.alpha * ev +
        cfg.beta * pyClamp influence (-cfg.clamp_influence) cfg.clamp_influence)))

/-- The `max_change` fold over claim then warrant keys. -/
noncomputable def maxChange (ncs cs nws ws : List (String × ℝ)) : ℝ :=
  nws.foldl (fun m kv => max m |kv.2 - assocLookupD ws kv.1 0|)
    (ncs.foldl (fun m kv => max m |kv.2 - assocLookupD cs kv.1 0|) 0)

open Classical in
/-- The iteration loop of `compute_warrant_gated_scores` (fuel =
`max_iterations`; early break once `max_change < epsilon`).  Returns final
claim scores, final warrant scores, claim snapshots, warrant snapshots. -/
noncomputable def wgLoop (g : ArgumentGraph) (claim_ev warrant_ev : List (String × ℚ))
    (cfg : WarrantGatedConfig) :
    Nat → List (String × ℝ) → List (String × ℝ) →
      List (List (String × ℝ)) → List (List (String × ℝ)) →
      List (String × ℝ) × List (String × ℝ) ×
        List (List (String × ℝ)) × List (List (String × ℝ))
  | 0, cs, ws, ci, wi => (cs, ws, ci, wi)
  | n + 1, cs, ws, ci, wi =>
    let nws := updateWarrants g warrant_ev cs cfg
    let gs := gateScores g nws cfg
    let ncs := updateClaims g claim_ev cs gs cfg
    let ci' := ci ++ [ncs]
    let wi' := wi ++ [nws]
    if maxChange ncs cs nws ws < cfg.epsilon then (ncs, nws, ci', wi')
    else wgLoop g claim_ev warrant_ev cfg n ncs nws ci' wi'

/-- `compute_warrant_gated_scores(graph, config=cfg)`. -/
noncomputable def computeWarrantGatedScores (g : ArgumentGraph)
    (cfg : WarrantGatedConfig) : WarrantGatedResult :=
  let claim_ev := claimEvidence g
  let warrant_ev := warrantEvidence g
  let cs0 := initScores cfg claim_ev
  let ws0 := initScores cfg warrant_ev
  let r := wgLoop g claim_ev warrant_ev cfg cfg.max_iterations cs0 ws0 [cs0] [ws0]
  { evidence_support := claim_ev
    warrant_evidence_support := warrant_ev
    gate_scores := gateScores g r.2.1 cfg
    claim_iterations := r.2.2.1
    warrant_iterations := r.2.2.2
    final_claim_scores := r.1
    final_warrant_scores := r.2.1 }

/-! ### `reasoning/credibility.py` and `critique/fragility.py` -/

/-- `CredibilityResult`: the result dataclass of `compute_credibility`.
Its only fields are `initial_evidence`, `iterations` and `final_scores`. -/
structure CredibilityResult where
  initial_evidence : List (String × ℝ)
  iterations : List (List (String × ℝ))
  final_scores : List (String × ℝ)

/-- The first loop of `_collect_evidence_scores`: card confidence when the
item id names a card, else the item's strength when present. -/
def credItemLoop (g : ArgumentGraph) : List EvidenceItem → List String → List ℚ × List String
  | [], seen => ([], seen)
  | item :: rest, seen =>
    match assocLookup item.id g.evidence_cards with
    | some card =>
      let out := credItemLoop g rest (seen ++ [item.id])
      (card.confidence :: out.1, out.2)
    | Option.none =>
      match item.strength with
      | some s =>
        let out := credItemLoop g rest (seen ++ [item.id])
        (s :: out.1, out.2)
      | Option.none => credItemLoop g rest seen

/-- The second loop of `_collect_evidence_scores`. -/
def credCardLoop (g : ArgumentGraph) : List String → List String → List ℚ
  | [], _ => []
  | eid :: rest, seen =>
    if seen.contains eid then credCardLoop g rest seen
    else
      match assocLookup eid g.evidence_cards with
      | some card => card.confidence :: credCardLoop g rest (seen ++ [eid])
      | Option.none => credCardLoop g rest seen

/-- The per-unit evidence score of `compute_credibility`: mean of the
collected scores clamped into the unit's (or the default) bounds — this
engine, unlike `_evidence_support`, honours `evidence_min`/`evidence_max`. -/
def credEvidenceScore (g : ArgumentGraph) (u : ArgumentUnit)
    (evidence_min evidence_max : ℚ) : ℚ :=
  let itemsOut := credItemLoop g u.evidence []
  let scores := itemsOut.1 ++ credCardLoop g u.evidence_ids itemsOut.2
  if scores.isEmpty then 0
  else
    let minVal := match u.evidence_min with | some m => m | Option.none => evidence_min
    let maxVal := match u.evidence_max with | some m => m | Option.none => evidence_max
    let clamped := scores.map (fun s => max (min s maxVal) minVal)
    clamped.sum / (clamped.length : ℚ)

/-- `_edge_contribution`. -/
noncomputable def credEdgeContribution (edge : Relation) (scores : List (String × ℝ)) : ℝ :=
  if edge.weight = some 0 then 0
  else
    let weight : ℝ := match edge.weight with | some w => (w : ℝ) | Option.none => 1
    let strength := |weight|
    let src := assocLookupD scores edge.src 0
    if edge.kind = "support" then strength * src else -(strength * |src|)

open Classical in
/-- One iteration of `compute_credibility` over the graph's units (nodes
without incoming relations keep their previous score; a node whose total
contribution is not meaningful — no contribution above 0.001 in absolute
value — also keeps it). -/
noncomputable def credStep (g : ArgumentGraph) (evidence_scores : List (String × ℚ))
    (lam : ℝ) (cPrev : List (String × ℝ)) : List (String × ℝ) :=
  g.units.map (fun kv =>
    let edges := g.relations.filter (fun r => r.dst == kv.1)
    if edges.isEmpty then (kv.1, assocLookupD cPrev kv.1 0)
    else
      let contributions := edges.map (fun e => credEdgeContribution e cPrev)
      if ∃ c ∈ contributions, (1 / 1000 : ℝ) < |c| then
        (kv.1,
          Real.tanh (lam * ((assocLookupD evidence_scores kv.1 0 : ℚ) : ℝ) +
            contributions.sum))
      else (kv.1, assocLookupD cPrev kv.1 0))

/-- `max(abs(c_new[n] - c_prev[n]) for n in c_new)`. -/
noncomputable def credMaxDelta (cNew cPrev : List (String × ℝ)) : ℝ :=
  cNew.foldl (fun m kv => max m |kv.2 - assocLookupD cPrev kv.1 0|) 0

open Classical in
/-- The iteration loop of `compute_credibility`. -/
noncomputable def credLoop (g : ArgumentGraph) (evidence_scores : List (String × ℚ))
    (lam eps : ℝ) :
    Nat → List (String × ℝ) → List (List (String × ℝ)) → List (List (String × ℝ))
  | 0, _, iters => iters
  | n + 1, cPrev, iters =>
    let cNew := credStep g evidence_scores lam cPrev
    let iters' := iters ++ [cNew]
    if credMaxDelta cNew cPrev < eps then iters'
    else credLoop g evidence_scores lam eps n cNew iters'

/-- `compute_credibility(graph)` with its default parameters
(`lambda_=0.5, max_iterations=100, epsilon=1e-6, evidence_min=0.0,
evidence_max=1.0`), as called by `analyze_warrant_fragility`. -/
noncomputable def computeCredibility (g : ArgumentGraph) : CredibilityResult :=
  let evidence_scores : List (String × ℚ) :=
    g.units.map (fun kv => (kv.1, credEvidenceScore g kv.2 0 1))
  let c0 : List (String × ℝ) := evidence_scores.map (fun kv => (kv.1, (kv.2 : ℝ)))
  let iters := credLoop g evidence_scores (1 / 2) (1 / 1000000) 100 c0 [c0]
  { initial_evidence := c0, iterations := iters, final_scores := (iters.getLast?).getD [] }

/-- `WarrantFragility` (the dataclass of `critique/fragility.py`). -/
structure WarrantFragility where
  edge_id : String
  dst : String
  gate_mode : String
  gate_score : ℝ
  critical_warrants : List String

/-- Python attribute lookup `result.warrant_scores` on a
`CredibilityResult`: the dataclass declares no such field, so the lookup
yields nothing (an `AttributeError` at runtime). -/
def CredibilityResult.getWarrantScores? (_ : CredibilityResult) :
    Option (List (String × ℝ)) :=
  Option.none

/-- `analyze_warrant_fragility(graph)`: runs `compute_credibility` and then
reads `result.warrant_scores` (line 33 of `fragility.py`).  Because
`CredibilityResult` has no `warrant_scores` attribute, this raises
`AttributeError` before any relation is examined; the remainder of the
function is unreachable. -/
noncomputable def analyzeWarrantFragility (g : ArgumentGraph) :
    Except String (List WarrantFragility) :=
  let result := computeCredibility g
  match result.getWarrantScores? with
  | Option.none =>
    Except.error "AttributeError: 'CredibilityResult' object has no attribute 'warrant_scores'"
  | some _ => Except.ok []

/-- The graph of `test_fragility.py`: claims A and B, one warrant, and an
OR-gated support relation citing it. -/
def fragilityTestGraph : ArgumentGraph :=
  ⟨[("c1", ⟨"c1", "A", "other", [], [], [], Option.none, Option.none, Option.none,
      false, false, []⟩),
    ("c2", ⟨"c2", "B", "other", [], [], [], Option.none, Option.none, Option.none,
      false, false, []⟩)],
   [("w1", ⟨"w1", "A warrants B", "fact", [], [], [], Option.none, false, false, []⟩)],
   [⟨"c1", "c2", "support", ["w1"], "OR", Option.none, Option.none, []⟩],
   [], [], [], [], []⟩

/-- A unit with configured evidence bounds [-1/2, 1/2] and one supporting
evidence item of strength 1. -/
def boundedUnit : ArgumentUnit :=
  ⟨"u2", "Bounded claim", "other", [],
    [⟨"e1", EvidenceSource.structured [], "supports", some 1, []⟩], [],
    some (-(1 / 2)), some (1 / 2), Option.none, false, false, []⟩

/-- The graph holding `boundedUnit` (no evidence cards). -/
def boundedGraph : ArgumentGraph :=
  ⟨[("u2", boundedUnit)], [], [], [], [], [], [], []⟩

/-- An AND-gated relation citing two warrants. -/
def gateTestRelation : Relation :=
  ⟨"c1", "c2", "support", ["wa", "wb"], "AND", Option.none, Option.none, []⟩

/-- A graph whose only relation is `gateTestRelation`. -/
def gateTestGraph : ArgumentGraph :=
  ⟨[], [], [gateTestRelation], [], [], [], [], []⟩

/-- Conflict-freeness as a proposition: no member attacks a member. -/
def ConflictFreeP (af : DungAF) (S : List String) : Prop :=
  ∀ a ∈ S, ∀ b ∈ S, (a, b) ∉ af.attacks

/-- Defense as a proposition: every attacker of `arg` is attacked from `S`. -/
def DefendsP (af : DungAF) (S : List String) (arg : String) : Prop :=
  ∀ b, (b, arg) ∈ af.attacks → ∃ d ∈ S, (d, b) ∈ af.attacks

/-- Strict-subset (as sets) as a proposition. -/
def SSubsetP (S T : List String) : Prop :=
  (∀ x ∈ S, x ∈ T) ∧ ¬(∀ y ∈ T, y ∈ S)

/-! ## Theorems -/

theorem contains_iff {α : Type} [BEq α] [LawfulBEq α] (xs : List α) (x : α) :
    xs.contains x = true ↔ x ∈ xs := List.elem_iff

theorem setEqB_iff {α : Type} [BEq α] [LawfulBEq α] (xs ys : List α) :
    setEqB xs ys = true ↔ ((∀ x ∈ xs, x ∈ ys) ∧ ∀ y ∈ ys, y ∈ xs) := by
  simp [setEqB, List.all_eq_true, contains_iff]

theorem subsetB_iff {α : Type} [BEq α] [LawfulBEq α] (xs ys : List α) :
    subsetB xs ys = true ↔ ∀ x ∈ xs, x ∈ ys := by
  simp [subsetB, List.all_eq_true, contains_iff]

theorem strictSubsetB_iff (xs ys : List String) :
    strictSubsetB xs ys = true ↔ SSubsetP xs ys := by
  unfold strictSubsetB SSubsetP
  rw [Bool.and_eq_true]
  constructor
  · rintro ⟨h1, h2⟩
    refine ⟨(subsetB_iff xs ys).mp h1, fun hc => ?_⟩
    rw [← subsetB_iff ys xs] at hc
    simp [hc] at h2
  · rintro ⟨h1, h2⟩
    refine ⟨(subsetB_iff xs ys).mpr h1, ?_⟩
    cases h : subsetB ys xs with
    | false => rfl
    | true => exact absurd ((subsetB_iff ys xs).mp h) h2

theorem conflictFree_iff (af : DungAF) (S : List String) :
    af.conflictFree S = true ↔ ConflictFreeP af S := by
  simp [DungAF.conflictFree, ConflictFreeP, List.all_eq_true, contains_iff]

theorem mem_attackersOf (af : DungAF) (arg b : String) :
    b ∈ af.attackersOf arg ↔ (b, arg) ∈ af.attacks := by
  simp only [DungAF.attackersOf, List.mem_map, List.mem_filter]
  constructor
  · rintro ⟨⟨x, y⟩, ⟨hm, hy⟩, rfl⟩
    simp only [beq_iff_eq] at hy
    simpa [hy] using hm
  · intro h
    exact ⟨(b, arg), ⟨h, by simp⟩, rfl⟩

theorem mem_attacksFrom (af : DungAF) (arg b : String) :
    b ∈ af.attacksFrom arg ↔ (arg, b) ∈ af.attacks := by
  simp only [DungAF.attacksFrom, List.mem_map, List.mem_filter]
  constructor
  · rintro ⟨⟨x, y⟩, ⟨hm, hy⟩, rfl⟩
    simp only [beq_iff_eq] at hy
    simpa [hy] using hm
  · intro h
    exact ⟨(arg, b), ⟨h, by simp⟩, rfl⟩

theorem defends_iff (af : DungAF) (S : List String) (arg : String) :
    af.defends S arg = true ↔ DefendsP af S arg := by
  unfold DungAF.defends
  by_cases hemp : (af.attackersOf arg).isEmpty
  · simp only [hemp, if_pos]
    have hnil : af.attackersOf arg = [] := List.isEmpty_iff.mp hemp
    constructor
    · intro _ b hb
      exact absurd ((mem_attackersOf af arg b).mpr hb) (by simp [hnil])
    · intro _; trivial
  · simp only [hemp, if_neg, Bool.not_eq_true]
    rw [setEqB_iff]
    constructor
    · rintro ⟨h1, _⟩ b hb
      have hmem : b ∈ af.attackersOf arg := (mem_attackersOf af arg b).mpr hb
      have := h1 b hmem
      rw [List.mem_filter] at this
      obtain ⟨-, hany⟩ := this
      rw [List.any_eq_true] at hany
      obtain ⟨d, hd, hdb⟩ := hany
      exact ⟨d, hd, (contains_iff _ _).mp hdb⟩
    · intro h
      constructor
      · intro b hb
        rw [List.mem_filter]
        refine ⟨hb, ?_⟩
        rw [List.any_eq_true]
        obtain ⟨d, hd, hdb⟩ := h b ((mem_attackersOf af arg b).mp hb)
        exact ⟨d, hd, (contains_iff _ _).mpr hdb⟩
      · intro b hb
        exact (List.mem_filter.mp hb).1

theorem mem_combinations {α : Type} (r : Nat) (l S : List α) :
    S ∈ combinations r l ↔ S.Sublist l ∧ S.length = r := by
  induction l generalizing r S with
  | nil =>
    cases r with
    | zero =>
      simp only [combinations, List.mem_singleton]
      constructor
      · rintro rfl; exact ⟨List.nil_sublist _, rfl⟩
      · rintro ⟨hs, hl⟩
        exact List.eq_nil_of_length_eq_zero hl
    | succ r =>
      simp only [combinations, List.not_mem_nil, false_iff, not_and]
      intro hs hl
      have := hs.length_le
      simp [hl] at this
  | cons x xs ih =>
    cases r with
    | zero =>
      simp only [combinations, List.mem_singleton]
      constructor
      · rintro rfl; exact ⟨List.nil_sublist _, rfl⟩
      · rintro ⟨hs, hl⟩
        exact List.eq_nil_of_length_eq_zero hl
    | succ r =>
      simp only [combinations, List.mem_append, List.mem_map]
      rw [List.sublist_cons_iff]
      constructor
      · rintro (⟨t, ht, rfl⟩ | h)
        · obtain ⟨hts, htl⟩ := (ih r t).mp ht
          exact ⟨Or.inr ⟨t, rfl, hts⟩, by simp [htl]⟩
        · obtain ⟨hts, htl⟩ := (ih (r + 1) S).mp h
          exact ⟨Or.inl hts, htl⟩
      · rintro ⟨(h | ⟨t, rfl, ht⟩), hl⟩
        · exact Or.inr ((ih (r + 1) S).mpr ⟨h, hl⟩)
        · refine Or.inl ⟨t, ?_, rfl⟩
          exact (ih r t).mpr ⟨ht, by simpa using hl⟩

theorem mem_powersetList {α : Type} (l S : List α) :
    S ∈ powersetList l ↔ S.Sublist l := by
  simp only [powersetList, List.mem_flatMap, List.mem_range]
  constructor
  · rintro ⟨r, -, hS⟩
    exact ((mem_combinations r l S).mp hS).1
  · intro h
    refine ⟨S.length, ?_, (mem_combinations S.length l S).mpr ⟨h, rfl⟩⟩
    have := h.length_le
    omega

theorem mem_admissibleSets (af : DungAF) (S : List String) :
    S ∈ af.admissibleSets ↔
      S.Sublist af.arguments ∧ ConflictFreeP af S ∧ ∀ a ∈ S, DefendsP af S a := by
  simp only [DungAF.admissibleSets, List.mem_filter, Bool.and_eq_true,
    mem_powersetList, List.all_eq_true, conflictFree_iff]
  constructor
  · rintro ⟨hsub, hcf, hdef⟩
    exact ⟨hsub, hcf, fun a ha => (defends_iff af S a).mp (hdef a ha)⟩
  · rintro ⟨hsub, hcf, hdef⟩
    exact ⟨hsub, hcf, fun a ha => (defends_iff af S a).mpr (hdef a ha)⟩

theorem mem_completeExtensions (af : DungAF) (S : List String) :
    S ∈ af.completeExtensions ↔
      S ∈ af.admissibleSets ∧
        ((∀ x ∈ af.arguments, DefendsP af S x → x ∈ S) ∧
          ∀ x ∈ S, x ∈ af.arguments ∧ DefendsP af S x) := by
  simp only [DungAF.completeExtensions, List.mem_filter]
  rw [setEqB_iff]
  constructor
  · rintro ⟨hadm, h1, h2⟩
    refine ⟨hadm, fun x hx hd =>
      h1 x (List.mem_filter.mpr ⟨hx, (defends_iff af S x).mpr hd⟩), fun x hx => ?_⟩
    have hx' := h2 x hx
    rw [List.mem_filter] at hx'
    exact ⟨hx'.1, (defends_iff af S x).mp hx'.2⟩
  · rintro ⟨hadm, h1, h2⟩
    refine ⟨hadm, fun x hx => ?_, fun x hx => ?_⟩
    · rw [List.mem_filter] at hx
      exact h1 x hx.1 ((defends_iff af S x).mp hx.2)
    · obtain ⟨ha, hd⟩ := h2 x hx
      exact List.mem_filter.mpr ⟨ha, (defends_iff af S x).mpr hd⟩

theorem mem_attackedBy (af : DungAF) (S : List String) (x : String) :
    x ∈ S.flatMap (fun a => af.attacksFrom a) ↔ ∃ a ∈ S, (a, x) ∈ af.attacks := by
  simp [List.mem_flatMap, mem_attacksFrom]

theorem mem_complementList (af : DungAF) (S : List String) (x : String) :
    x ∈ af.arguments.filter (fun a => !(S.contains a)) ↔ x ∈ af.arguments ∧ x ∉ S := by
  simp [List.mem_filter, contains_iff]

theorem mem_stableExtensions (af : DungAF) (S : List String) :
    S ∈ af.stableExtensions ↔
      S.Sublist af.arguments ∧ ConflictFreeP af S ∧
        ((∀ x, (∃ a ∈ S, (a, x) ∈ af.attacks) → x ∈ af.arguments ∧ x ∉ S) ∧
          ∀ x ∈ af.arguments, x ∉ S → ∃ a ∈ S, (a, x) ∈ af.attacks) := by
  simp only [DungAF.stableExtensions, List.mem_filter, Bool.and_eq_true, mem_powersetList,
    conflictFree_iff]
  rw [setEqB_iff]
  constructor
  · rintro ⟨hsub, hcf, h1, h2⟩
    refine ⟨hsub, hcf, fun x hx => ?_, fun x hxA hxS => ?_⟩
    · have := h1 x ((mem_attackedBy af S x).mpr hx)
      exact (mem_complementList af S x).mp this
    · exact (mem_attackedBy af S x).mp (h2 x ((mem_complementList af S x).mpr ⟨hxA, hxS⟩))
  · rintro ⟨hsub, hcf, h1, h2⟩
    refine ⟨hsub, hcf, fun x hx => ?_, fun x hx => ?_⟩
    · exact (mem_complementList af S x).mpr (h1 x ((mem_attackedBy af S x).mp hx))
    · obtain ⟨hxA, hxS⟩ := (mem_complementList af S x).mp hx
      exact (mem_attackedBy af S x).mpr (h2 x hxA hxS)

theorem mem_preferredExtensions (af : DungAF) (S : List String) :
    S ∈ af.preferredExtensions ↔
      S ∈ af.admissibleSets ∧ ∀ T ∈ af.admissibleSets, ¬SSubsetP S T := by
  simp only [DungAF.preferredExtensions, List.mem_filter, Bool.not_eq_true', List.any_eq_false]
  constructor
  · rintro ⟨hmem, hall⟩
    refine ⟨hmem, fun T hT hss => ?_⟩
    have := hall T hT
    rw [← strictSubsetB_iff S T] at hss
    simp [hss] at this
  · rintro ⟨hmem, hall⟩
    refine ⟨hmem, fun T hT => ?_⟩
    cases h : strictSubsetB S T with
    | false => simp
    | true => exact absurd ((strictSubsetB_iff S T).mp h) (hall T hT)

theorem defendsP_mono {af : DungAF} {S T : List String} (hST : ∀ x ∈ S, x ∈ T) {a : String}
    (h : DefendsP af S a) : DefendsP af T a := by
  intro b hb
  obtain ⟨d, hd, hdb⟩ := h b hb
  exact ⟨d, hST d hd, hdb⟩

theorem stable_mem_admissible (af : DungAF)
    (hwf : ∀ p ∈ af.attacks, p.1 ∈ af.arguments)
    {S : List String} (hS : S ∈ af.stableExtensions) : S ∈ af.admissibleSets := by
  rw [mem_stableExtensions] at hS
  obtain ⟨hsub, hcf, hcov, hcomp⟩ := hS
  rw [mem_admissibleSets]
  refine ⟨hsub, hcf, fun a ha => ?_⟩
  intro b hb
  by_cases hbS : b ∈ S
  · exact absurd hb (hcf b hbS a ha)
  · exact hcomp b (hwf (b, a) hb) hbS

theorem stable_mem_preferred (af : DungAF)
    (hwf : ∀ p ∈ af.attacks, p.1 ∈ af.arguments)
    {S : List String} (hS : S ∈ af.stableExtensions) : S ∈ af.preferredExtensions := by
  have hadm := stable_mem_admissible af hwf hS
  rw [mem_stableExtensions] at hS
  obtain ⟨hsub, hcf, hcov, hcomp⟩ := hS
  rw [mem_preferredExtensions]
  refine ⟨hadm, fun T hT hss => ?_⟩
  obtain ⟨hST, hTS⟩ := hss
  push_neg at hTS
  obtain ⟨t, ht, htS⟩ := hTS
  rw [mem_admissibleSets] at hT
  obtain ⟨hTsub, hTcf, -⟩ := hT
  obtain ⟨s, hsS, hst⟩ := hcomp t (hTsub.subset ht) htS
  exact hTcf s (hST s hsS) t ht hst

theorem preferred_mem_complete (af : DungAF) {S : List String}
    (hS : S ∈ af.preferredExtensions) : S ∈ af.completeExtensions := by
  rw [mem_preferredExtensions] at hS
  obtain ⟨hadm, hmax⟩ := hS
  have hadm' := hadm
  rw [mem_admissibleSets] at hadm'
  obtain ⟨hsub, hcf, hdef⟩ := hadm'
  rw [mem_completeExtensions]
  refine ⟨hadm, fun x hx hdx => ?_, fun x hx => ⟨hsub.subset hx, hdef x hx⟩⟩
  by_contra hxS
  have hmemT : ∀ y, y ∈ af.arguments.filter (fun y => S.contains y || y == x) ↔
      (y ∈ S ∨ y = x) := by
    intro y
    simp only [List.mem_filter, Bool.or_eq_true, beq_iff_eq, contains_iff]
    constructor
    · rintro ⟨-, h⟩; exact h
    · rintro (h | rfl)
      · exact ⟨hsub.subset h, Or.inl h⟩
      · exact ⟨hx, Or.inr rfl⟩
  have hTadm : af.arguments.filter (fun y => S.contains y || y == x) ∈ af.admissibleSets := by
    rw [mem_admissibleSets]
    refine ⟨List.filter_sublist _, ?_, ?_⟩
    · intro a haT b hbT hab
      rw [hmemT] at haT hbT
      rcases haT with haS | rfl
      · rcases hbT with hbS | rfl
        · exact hcf a haS b hbS hab
        · obtain ⟨d, hdS, hda⟩ := hdx a hab
          exact hcf d hdS a haS hda
      · rcases hbT with hbS | rfl
        · obtain ⟨d, hdS, hdc⟩ := hdef b hbS _ hab
          obtain ⟨e, heS, hed⟩ := hdx d hdc
          exact hcf e heS d hdS hed
        · obtain ⟨d, hdS, hda⟩ := hdx _ hab
          obtain ⟨e, heS, hed⟩ := hdx d hda
          exact hcf e heS d hdS hed
    · intro m hmT
      rw [hmemT] at hmT
      have hDm : DefendsP af S m := by
        rcases hmT with hmS | hmEq
        · exact hdef m hmS
        · subst hmEq; exact hdx
      exact defendsP_mono (fun y hy => (hmemT y).mpr (Or.inl hy)) hDm
  refine hmax _ hTadm ⟨fun y hy => (hmemT y).mpr (Or.inl hy), fun hall => ?_⟩
  exact hxS (hall x ((hmemT x).mpr (Or.inr rfl)))

theorem complete_mem_admissible (af : DungAF) {S : List String}
    (hS : S ∈ af.completeExtensions) : S ∈ af.admissibleSets :=
  (List.mem_filter.mp hS).1

theorem exists_max_length {α : Type} (L : List (List α)) (hne : L ≠ []) :
    ∃ M ∈ L, ∀ T ∈ L, T.length ≤ M.length := by
  induction L with
  | nil => exact absurd rfl hne
  | cons x xs ih =>
    cases xs with
    | nil => exact ⟨x, by simp, by simp⟩
    | cons y ys =>
      obtain ⟨M, hM, hmax⟩ := ih (by simp)
      by_cases h : M.length ≤ x.length
      · refine ⟨x, by simp, fun T hT => ?_⟩
        rcases List.mem_cons.mp hT with rfl | hT'
        · exact le_rfl
        · exact le_trans (hmax T hT') h
      · refine ⟨M, List.mem_cons_of_mem _ hM, fun T hT => ?_⟩
        rcases List.mem_cons.mp hT with rfl | hT'
        · omega
        · exact hmax T hT'

theorem preferred_ne_nil (af : DungAF) (hnd : af.arguments.Nodup) :
    af.preferredExtensions ≠ [] := by
  have hnil_adm : ([] : List String) ∈ af.admissibleSets := by
    rw [mem_admissibleSets]
    refine ⟨List.nil_sublist _, ?_, ?_⟩
    · intro a ha; cases ha
    · intro a ha; cases ha
  obtain ⟨M, hM, hmax⟩ := exists_max_length af.admissibleSets (List.ne_nil_of_mem hnil_adm)
  have hMpref : M ∈ af.preferredExtensions := by
    rw [mem_preferredExtensions]
    refine ⟨hM, fun T hT hss => ?_⟩
    obtain ⟨hsub, hnsub⟩ := hss
    push_neg at hnsub
    obtain ⟨t, htT, htM⟩ := hnsub
    have hMnd : M.Nodup := List.Nodup.sublist ((mem_admissibleSets af M).mp hM).1 hnd
    have hTmem : ∀ y ∈ t :: M, y ∈ T := by
      intro y hy
      rcases List.mem_cons.mp hy with rfl | hy'
      · exact htT
      · exact hsub y hy'
    have hsp : (t :: M).Subperm T := (List.nodup_cons.mpr ⟨htM, hMnd⟩).subperm hTmem
    have hlen := hsp.length_le
    have := hmax T hT
    simp only [List.length_cons] at hlen
    omega
  exact List.ne_nil_of_mem hMpref

theorem mem_foldl_filter (rest : List (List String)) (e : List String) (x : String) :
    x ∈ rest.foldl (fun acc s => acc.filter (fun y => s.contains y)) e ↔
      x ∈ e ∧ ∀ s ∈ rest, x ∈ s := by
  induction rest generalizing e with
  | nil => simp
  | cons s ss ih =>
    simp only [List.foldl_cons]
    rw [ih]
    simp only [List.mem_filter, contains_iff]
    constructor
    · rintro ⟨⟨hxe, hxs⟩, hall⟩
      refine ⟨hxe, fun t ht => ?_⟩
      rcases List.mem_cons.mp ht with rfl | ht'
      · exact hxs
      · exact hall t ht'
    · rintro ⟨hxe, hall⟩
      exact ⟨⟨hxe, hall s (by simp)⟩, fun t ht => hall t (by simp [ht])⟩

theorem mem_groundedExtension (af : DungAF) (x : String) :
    x ∈ af.groundedExtension ↔
      af.completeExtensions ≠ [] ∧ ∀ C ∈ af.completeExtensions, x ∈ C := by
  cases h : af.completeExtensions with
  | nil => simp [DungAF.groundedExtension, h]
  | cons e rest =>
    have hg : af.groundedExtension =
        rest.foldl (fun acc s => acc.filter (fun y => s.contains y)) e := by
      simp [DungAF.groundedExtension, h]
    rw [hg, mem_foldl_filter]
    constructor
    · rintro ⟨hxe, hall⟩
      refine ⟨by simp, fun C hC => ?_⟩
      rcases List.mem_cons.mp hC with rfl | hC'
      · exact hxe
      · exact hall C hC'
    · rintro ⟨-, hall⟩
      exact ⟨hall e (by simp), fun s hs => hall s (by simp [hs])⟩

/-- C1: for every finite Dung framework (distinct arguments, attackers drawn
from the argument set), the extension families computed by `DungAF` satisfy
stable ⊆ preferred ⊆ complete ⊆ admissible, complete extensions exist, the
grounded extension is exactly the intersection of all complete extensions,
and it is contained in every preferred extension. -/
theorem claim_C1_extension_lattice (af : DungAF)
    (hnd : af.arguments.Nodup)
    (hwf : ∀ p ∈ af.attacks, p.1 ∈ af.arguments) :
    (∀ S ∈ af.stableExtensions, S ∈ af.preferredExtensions) ∧
      (∀ S ∈ af.preferredExtensions, S ∈ af.completeExtensions) ∧
      (∀ S ∈ af.completeExtensions, S ∈ af.admissibleSets) ∧
      af.completeExtensions ≠ [] ∧
      (∀ x, x ∈ af.groundedExtension ↔ ∀ C ∈ af.completeExtensions, x ∈ C) ∧
      (∀ P ∈ af.preferredExtensions, ∀ x ∈ af.groundedExtension, x ∈ P) := by
  have hpc : ∀ S ∈ af.preferredExtensions, S ∈ af.completeExtensions :=
    fun S hS => preferred_mem_complete af hS
  have hcne : af.completeExtensions ≠ [] := by
    obtain ⟨M, hM⟩ := List.exists_mem_of_ne_nil _ (preferred_ne_nil af hnd)
    exact List.ne_nil_of_mem (hpc M hM)
  refine ⟨fun S hS => stable_mem_preferred af hwf hS, hpc,
    fun S hS => complete_mem_admissible af hS, hcne, fun x => ?_, fun P hP x hx => ?_⟩
  · rw [mem_groundedExtension]
    exact ⟨fun h => h.2, fun h => ⟨hcne, h⟩⟩
  · exact ((mem_groundedExtension af x).mp hx).2 P (hpc P hP)

/-- Witness for C1 at the two-argument mutual-attack framework. -/
theorem claim_C1_extension_lattice_witness :
    (∀ S ∈ (DungAF.mk ["a", "b"] [("a", "b"), ("b", "a")]).stableExtensions,
        S ∈ (DungAF.mk ["a", "b"] [("a", "b"), ("b", "a")]).preferredExtensions) ∧
      (∀ S ∈ (DungAF.mk ["a", "b"] [("a", "b"), ("b", "a")]).preferredExtensions,
        S ∈ (DungAF.mk ["a", "b"] [("a", "b"), ("b", "a")]).completeExtensions) ∧
      (∀ S ∈ (DungAF.mk ["a", "b"] [("a", "b"), ("b", "a")]).completeExtensions,
        S ∈ (DungAF.mk ["a", "b"] [("a", "b"), ("b", "a")]).admissibleSets) ∧
      (DungAF.mk ["a", "b"] [("a", "b"), ("b", "a")]).completeExtensions ≠ [] ∧
      (∀ x, x ∈ (DungAF.mk ["a", "b"] [("a", "b"), ("b", "a")]).groundedExtension ↔
        ∀ C ∈ (DungAF.mk ["a", "b"] [("a", "b"), ("b", "a")]).completeExtensions, x ∈ C) ∧
      (∀ P ∈ (DungAF.mk ["a", "b"] [("a", "b"), ("b", "a")]).preferredExtensions,
        ∀ x ∈ (DungAF.mk ["a", "b"] [("a", "b"), ("b", "a")]).groundedExtension, x ∈ P) :=
  claim_C1_extension_lattice (DungAF.mk ["a", "b"] [("a", "b"), ("b", "a")])
    (by decide) (by decide)

/-- C3 counterexample: for assumptions `{a,b}`, `contrary(b)=p`, rule
`p←a`, the default-size `to_dung` also derives `p` from the pair `{a,b}`,
so its attack relation additionally contains `({a&b}, b)` and is not equal
to `{(a,b)}`. -/
theorem claim_C3_counterexample :
    ("\x7ba&b\x7d", "b") ∈
        (ABAFramework.toDung ⟨["a", "b"], [("b", "p")], [⟨"p", ["a"]⟩]⟩ 2).attacks ∧
      setEqB (ABAFramework.toDung ⟨["a", "b"], [("b", "p")], [⟨"p", ["a"]⟩]⟩ 2).attacks
          [("a", "b")] = false := by
  decide

/-- C3 (amended): the first framework's attack relation is exactly
`{(a,b), ({a&b},b)}` — in particular `(a,b)` is present — and the second
framework with `max_assumption_set_size=2` contains the composite attack
`({a&b}, c)`. -/
theorem claim_C3_toDung_attacks :
    (ABAFramework.toDung ⟨["a", "b"], [("b", "p")], [⟨"p", ["a"]⟩]⟩ 2).attacks =
        [("a", "b"), ("\x7ba&b\x7d", "b")] ∧
      ("a", "b") ∈
        (ABAFramework.toDung ⟨["a", "b"], [("b", "p")], [⟨"p", ["a"]⟩]⟩ 2).attacks ∧
      ("\x7ba&b\x7d", "c") ∈
        (ABAFramework.toDung ⟨["a", "b", "c"], [("c", "p")], [⟨"p", ["a", "b"]⟩]⟩ 2).attacks := by
  decide

/-- C7 counterexample: the same framework — argument set `{a,b}` with no
attacks, embedded in its two possible set-iteration orders — yields two
different `admissible_sets` lists, so the output is neither sorted nor
independent of enumeration order. -/
theorem claim_C7_counterexample :
    setEqB (DungAF.mk ["a", "b"] []).arguments (DungAF.mk ["b", "a"] []).arguments = true ∧
      (DungAF.mk ["a", "b"] []).attacks = (DungAF.mk ["b", "a"] []).attacks ∧
      (DungAF.mk ["a", "b"] []).admissibleSets ≠ (DungAF.mk ["b", "a"] []).admissibleSets := by
  decide

/-- C7 (amended): each enumerating operation returns its extensions as a
subsequence of the powerset enumeration (subsets by increasing size, in
combination order over the argument collection's iteration order); nothing
is sorted afterwards, so the output order is exactly the order this
enumeration induces. -/
theorem claim_C7_enumeration_order (af : DungAF) :
    af.admissibleSets.Sublist (powersetList af.arguments) ∧
      af.completeExtensions.Sublist af.admissibleSets ∧
      af.preferredExtensions.Sublist af.admissibleSets ∧
      af.stableExtensions.Sublist (powersetList af.arguments) :=
  ⟨List.filter_sublist _, List.filter_sublist _, List.filter_sublist _, List.filter_sublist _⟩

theorem extensions_unsupported (af : DungAF) (s : String)
    (h : pyToLower s ∉ (["grounded", "preferred", "stable", "complete"] : List String)) :
    af.extensions s = Except.error ("Unsupported semantics: " ++ pyToLower s) := by
  have h1 : ¬(pyToLower s = "grounded") := fun hc => h (by simp [hc])
  have h2 : ¬(pyToLower s = "preferred") := fun hc => h (by simp [hc])
  have h3 : ¬(pyToLower s = "stable") := fun hc => h (by simp [hc])
  have h4 : ¬(pyToLower s = "complete") := fun hc => h (by simp [hc])
  simp [DungAF.extensions, h1, h2, h3, h4]

/-- C8 counterexample: `"GROUNDED"` is outside the literal set
`{grounded, preferred, stable, complete}`, yet `compute` lower-cases it and
returns the (non-empty) grounded extension list instead of an empty one. -/
theorem claim_C8_counterexample :
    ("GROUNDED" ∉ (["grounded", "preferred", "stable", "complete"] : List String)) ∧
      (ABAFramework.compute ⟨[], [], []⟩ "GROUNDED").extensions ≠ [] := by
  decide

/-- C8 (amended): for every semantics name whose lower-cased form is outside
`{grounded, preferred, stable, complete}`, `ABAFramework.compute` degrades
to an empty extension list while `DungAF.extensions` fails with an
unsupported-semantics error naming the lower-cased requested value. -/
theorem claim_C8_unsupported_semantics_degrades (fw : ABAFramework) (af : DungAF) (s : String)
    (h : pyToLower s ∉ (["grounded", "preferred", "stable", "complete"] : List String)) :
    (fw.compute s).extensions = [] ∧
      af.extensions s = Except.error ("Unsupported semantics: " ++ pyToLower s) := by
  refine ⟨?_, extensions_unsupported af s h⟩
  unfold ABAFramework.compute
  rw [extensions_unsupported (fw.toDung 2) s h]

/-- Witness for C8 at the empty framework and the name `foo`. -/
theorem claim_C8_unsupported_semantics_degrades_witness :
    (ABAFramework.compute ⟨[], [], []⟩ "foo").extensions = [] ∧
      DungAF.extensions ⟨[], []⟩ "foo" =
        Except.error ("Unsupported semantics: " ++ pyToLower "foo") :=
  claim_C8_unsupported_semantics_degrades ⟨[], [], []⟩ ⟨[], []⟩ "foo" (by decide)

theorem decodeOptStr_optStr (s : Option String) : decodeOptStr (some (optStr s)) = some s := by
  cases s <;> rfl

theorem decodeOptInt_optInt (n : Option Int) : decodeOptInt (some (optInt n)) = some n := by
  cases n <;> rfl

theorem decodeOptFloat_optFloat (q : Option ℚ) : decodeOptFloat (some (optFloat q)) = some q := by
  cases q <;> rfl

theorem decodeOptDict_optDict (d : Option (List (String × PyVal))) :
    decodeOptDict (some (optDict d)) = some d := by
  cases d <;> rfl

theorem decodeBbox_encBbox (b : Option (ℚ × ℚ × ℚ × ℚ)) :
    decodeBbox (some (encBbox b)) = some b := by
  rcases b with - | ⟨a, b, c, d⟩ <;> rfl

theorem mapOption_map_encode {α : Type} {enc : α → PyVal} {dec : PyVal → Option α}
    (h : ∀ x, dec (enc x) = some x) (xs : List α) :
    mapOption dec (xs.map enc) = some xs := by
  induction xs with
  | nil => rfl
  | cons x rest ih => simp [mapOption, h, ih]

theorem mapOption_encodeKeyed {α : Type} {enc : α → PyVal} {dec : PyVal → Option α}
    (h : ∀ x, dec (enc x) = some x) (kvs : List (String × α)) :
    mapOption (fun kv => (dec kv.2).map (fun x => (kv.1, x)))
      (kvs.map (fun kv => (kv.1, enc kv.2))) = some kvs := by
  induction kvs with
  | nil => rfl
  | cons kv rest ih => simp [mapOption, h, ih]

theorem span_roundtrip (s : TextSpan) : TextSpan.fromDict s.toDict = some s := by
  simp [TextSpan.toDict, TextSpan.fromDict, PyVal.get?, assocLookup, PyVal.asStr?,
    PyVal.asInt?, decodeOptInt_optInt, decodeBbox_encBbox]

theorem evidenceSource_roundtrip (s : EvidenceSource) :
    decodeEvidenceSource s.toDict = some s := by
  cases s with
  | span sp =>
    simp [EvidenceSource.toDict, decodeEvidenceSource, assocLookup, span_roundtrip]
  | structured d =>
    simp [EvidenceSource.toDict, decodeEvidenceSource, assocLookup]

theorem item_roundtrip (e : EvidenceItem) : EvidenceItem.fromDict e.toDict = some e := by
  simp [EvidenceItem.toDict, EvidenceItem.fromDict, PyVal.get?, assocLookup, PyVal.asStr?,
    evidenceSource_roundtrip, decodeOptFloat_optFloat, decodeDictD]

theorem doc_roundtrip (d : SupportingDocument) :
    SupportingDocument.fromDict d.toDict = some d := by
  simp [SupportingDocument.toDict, SupportingDocument.fromDict, PyVal.get?, assocLookup,
    PyVal.asStr?, decodeOptFloat_optFloat, decodeOptStr_optStr, decodeOptDict_optDict]

theorem card_roundtrip (c : EvidenceCard) : EvidenceCard.fromDict c.toDict = some c := by
  simp [EvidenceCard.toDict, EvidenceCard.fromDict, PyVal.get?, assocLookup, PyVal.asStr?,
    PyVal.asFloat?, decodeOptDict_optDict]

theorem unit_roundtrip (u : ArgumentUnit) : ArgumentUnit.fromDict u.toDict = some u := by
  simp [ArgumentUnit.toDict, ArgumentUnit.fromDict, PyVal.get?, assocLookup, PyVal.asStr?,
    mapOption_map_encode span_roundtrip, mapOption_map_encode item_roundtrip,
    mapOption_map_encode (fun s => (rfl : PyVal.asStr? (PyVal.str s) = some s)),
    decodeOptFloat_optFloat, decodeBoolD, decodeDictD]

theorem warrant_roundtrip (w : Warrant) : Warrant.fromDict w.toDict = some w := by
  simp [Warrant.toDict, Warrant.fromDict, PyVal.get?, assocLookup, PyVal.asStr?,
    mapOption_map_encode span_roundtrip, mapOption_map_encode item_roundtrip,
    mapOption_map_encode (fun s => (rfl : PyVal.asStr? (PyVal.str s) = some s)),
    decodeOptFloat_optFloat, decodeBoolD, decodeDictD]

theorem warrantAttack_roundtrip (a : WarrantAttack) :
    WarrantAttack.fromDict a.toDict = some a := by
  simp [WarrantAttack.toDict, WarrantAttack.fromDict, PyVal.get?, assocLookup, PyVal.asStr?,
    decodeOptStr_optStr, decodeDictD]

theorem relation_roundtrip (r : Relation) : Relation.fromDict r.toDict = some r := by
  simp [Relation.toDict, Relation.fromDict, PyVal.get?, assocLookup, PyVal.asStr?,
    mapOption_map_encode (fun s => (rfl : PyVal.asStr? (PyVal.str s) = some s)),
    decodeOptFloat_optFloat, decodeOptStr_optStr, decodeDictD]

theorem bundle_roundtrip (b : ArgumentBundle) : ArgumentBundle.fromDict b.toDict = some b := by
  simp [ArgumentBundle.toDict, ArgumentBundle.fromDict, PyVal.get?, assocLookup, PyVal.asStr?,
    mapOption_map_encode (fun s => (rfl : PyVal.asStr? (PyVal.str s) = some s)),
    mapOption_map_encode relation_roundtrip, decodeDictD]

theorem decodeKeyed_encodeKeyed {α : Type} {enc : α → PyVal} {dec : PyVal → Option α}
    (h : ∀ x, dec (enc x) = some x) (kvs : List (String × α)) :
    decodeKeyed dec (some (encodeKeyed enc kvs)) = some kvs := by
  simp [decodeKeyed, encodeKeyed, mapOption_encodeKeyed h]

/-- C6: deserializing a serialized graph reproduces it exactly —
`ArgumentGraph.from_dict(g.to_dict()) == g`, field for field, for every
graph, including graphs with axioms, warrants, evidence cards, supporting
documents and argument bundles. -/
theorem claim_C6_serialization_roundtrip (g : ArgumentGraph) :
    ArgumentGraph.fromDict g.toDict = some g := by
  simp [ArgumentGraph.toDict, ArgumentGraph.fromDict, PyVal.get?, assocLookup,
    decodeKeyed_encodeKeyed unit_roundtrip, decodeKeyed_encodeKeyed warrant_roundtrip,
    decodeKeyed_encodeKeyed card_roundtrip, decodeKeyed_encodeKeyed doc_roundtrip,
    decodeKeyed_encodeKeyed bundle_roundtrip, decodeListSection,
    mapOption_map_encode relation_roundtrip, mapOption_map_encode warrantAttack_roundtrip,
    decodeDictD]

/-- C9 counterexample: `add_warrant_attack` succeeds even though its source
unit id does not exist in the graph, contradicting the claim that every
referenced unit id is validated. -/
theorem claim_C9_counterexample :
    assocLookup "ghost" sampleGraph.units = Option.none ∧
      (sampleGraph.addWarrantAttack "ghost" "w1" Option.none []).isOk = true :=
  ⟨rfl, rfl⟩

/-- C9 (amended): `attach_evidence`, `attach_evidence_to_warrant` and
`attach_evidence_card` fail with a not-found error naming the missing unit,
warrant or evidence-card id; `add_warrant_attack` validates only the target
warrant id and accepts a dangling source unit. -/
theorem claim_C9_reference_errors (g : ArgumentGraph)
    (uidMissing wid uid2 cid wid2 eid src stance stance2 : String)
    (u : ArgumentUnit) (w : Warrant)
    (source : EvidenceSource) (strength : Option ℚ) (quality : List (String × PyVal))
    (rationale : Option String) (md : List (String × PyVal))
    (hu : assocLookup uidMissing g.units = Option.none)
    (hw : assocLookup wid g.warrants = Option.none)
    (hu2 : assocLookup uid2 g.units = some u)
    (hc : assocLookup cid g.evidence_cards = Option.none)
    (hw2 : assocLookup wid2 g.warrants = some w) :
    g.attachEvidence uidMissing eid source stance strength quality =
        Except.error ("Unknown unit id: " ++ uidMissing) ∧
      g.attachEvidenceToWarrant wid eid source stance strength quality =
        Except.error ("Unknown warrant id: " ++ wid) ∧
      g.attachEvidenceCard uidMissing cid stance2 =
        Except.error ("Unknown unit id: " ++ uidMissing) ∧
      g.attachEvidenceCard uid2 cid stance2 =
        Except.error ("Unknown evidence card id: " ++ cid) ∧
      g.addWarrantAttack src wid rationale md =
        Except.error ("Unknown warrant id: " ++ wid) ∧
      (g.addWarrantAttack src wid2 rationale md).isOk = true := by
  refine ⟨?_, ?_, ?_, ?_, ?_, ?_⟩ <;>
    simp [ArgumentGraph.attachEvidence, ArgumentGraph.attachEvidenceToWarrant,
      ArgumentGraph.attachEvidenceCard, ArgumentGraph.addWarrantAttack,
      hu, hw, hu2, hc, hw2, Except.isOk, Except.toBool]

/-- Witness for C9 on the one-unit, one-warrant graph. -/
theorem claim_C9_reference_errors_witness :
    sampleGraph.attachEvidence "nope" "e1" (EvidenceSource.structured []) "supports"
          Option.none [] =
        Except.error ("Unknown unit id: " ++ "nope") ∧
      sampleGraph.attachEvidenceToWarrant "gone" "e1" (EvidenceSource.structured [])
          "supports" Option.none [] =
        Except.error ("Unknown warrant id: " ++ "gone") ∧
      sampleGraph.attachEvidenceCard "nope" "c9" "supports" =
        Except.error ("Unknown unit id: " ++ "nope") ∧
      sampleGraph.attachEvidenceCard "u1" "c9" "supports" =
        Except.error ("Unknown evidence card id: " ++ "c9") ∧
      sampleGraph.addWarrantAttack "ghost" "gone" Option.none [] =
        Except.error ("Unknown warrant id: " ++ "gone") ∧
      (sampleGraph.addWarrantAttack "ghost" "w1" Option.none []).isOk = true :=
  claim_C9_reference_errors sampleGraph "nope" "gone" "u1" "c9" "w1" "e1" "ghost"
    "supports" "supports" sampleUnit sampleWarrant (EvidenceSource.structured [])
    Option.none [] Option.none [] rfl rfl rfl rfl rfl

/-- C4 (code bug): `analyze_warrant_fragility` reads `result.warrant_scores`
off the `CredibilityResult` returned by `compute_credibility`; the dataclass
has no such attribute, so the call raises `AttributeError` on every graph —
here on the repository's own `test_fragility.py` graph, which has a
warrant-citing relation and whose test expects a fragility entry. -/
theorem claim_C4_fragility_attribute_error :
    (fragilityTestGraph.relations.any (fun r => !r.warrant_ids.isEmpty)) = true ∧
      analyzeWarrantFragility fragilityTestGraph =
        Except.error
          "AttributeError: 'CredibilityResult' object has no attribute 'warrant_scores'" :=
  ⟨rfl, rfl⟩

/-- C2 counterexample: `_evidence_support` gives the bounded unit support 1
(clamping only to the fixed [-1,1]), while the claim's configured-bounds
reading predicts 1/2. -/
theorem claim_C2_counterexample :
    evidenceSupport boundedGraph boundedUnit.evidence boundedUnit.evidence_ids = 1 ∧
      specConfiguredEvidenceSupport boundedGraph boundedUnit = 1 / 2 ∧
      (1 : ℚ) ≠ 1 / 2 := by
  refine ⟨?_, ?_, by norm_num⟩ <;>
    norm_num [evidenceSupport, specConfiguredEvidenceSupport, collectSignedScores,
      collectCardScores, evidenceItemScore, cardScore, assocLookup, boundedGraph,
      boundedUnit, pyClamp]

theorem pyClamp_bounds {α : Type} [LinearOrder α] (v lo hi : α) (h : lo ≤ hi) :
    lo ≤ pyClamp v lo hi ∧ pyClamp v lo hi ≤ hi :=
  ⟨le_max_left _ _, max_le h (min_le_left _ _)⟩

theorem evidenceSupport_bounds (g : ArgumentGraph) (evidence : List EvidenceItem)
    (evidence_ids : List String) :
    (-1 : ℚ) ≤ evidenceSupport g evidence evidence_ids ∧
      evidenceSupport g evidence evidence_ids ≤ 1 := by
  unfold evidenceSupport
  by_cases hemp :
      ((collectSignedScores g evidence []).1 ++
        collectCardScores g evidence_ids (collectSignedScores g evidence []).2).isEmpty
  · simp only [hemp, if_pos]
    norm_num
  · simp only [hemp, if_neg, Bool.not_eq_true]
    exact pyClamp_bounds _ _ _ (by norm_num)

theorem lookup_keys_unique {α : Type} {m : List (String × α)}
    (hnd : (m.map Prod.fst).Nodup) {k : String} {a b : α}
    (ha : (k, a) ∈ m) (hb : (k, b) ∈ m) : a = b := by
  induction m with
  | nil => cases ha
  | cons kv rest ih =>
    simp only [List.map_cons, List.nodup_cons] at hnd
    rcases List.mem_cons.mp ha with heq | ha'
    · rcases List.mem_cons.mp hb with heq' | hb'
      · rw [← heq'] at heq
        exact (Prod.ext_iff.mp heq).2
      · exfalso
        apply hnd.1
        rw [← heq]
        exact List.mem_map.mpr ⟨(k, b), hb', rfl⟩
    · rcases List.mem_cons.mp hb with heq' | hb'
      · exfalso
        apply hnd.1
        rw [← heq']
        exact List.mem_map.mpr ⟨(k, a), ha', rfl⟩
      · exact ih hnd.2 ha' hb'

theorem assocLookup_of_mem {α : Type} {m : List (String × α)}
    (hnd : (m.map Prod.fst).Nodup) {k : String} {a : α} (ha : (k, a) ∈ m) :
    assocLookup k m = some a := by
  induction m with
  | nil => cases ha
  | cons kv rest ih =>
    simp only [List.map_cons, List.nodup_cons] at hnd
    rcases List.mem_cons.mp ha with heq | ha'
    · rw [← heq]
      simp [assocLookup]
    · have hk : ¬(kv.1 = k) := by
        intro hc
        apply hnd.1
        rw [hc]
        exact List.mem_map.mpr ⟨(k, a), ha', rfl⟩
      simpa [assocLookup, hk] using ih hnd.2 ha'

theorem assocLookup_updateAssoc_ne {α : Type} (m : List (String × α)) (k k' : String)
    (f : α → α) (h : k' ≠ k) :
    assocLookup k (updateAssoc m k' f) = assocLookup k m := by
  induction m with
  | nil => rfl
  | cons kv rest ih =>
    obtain ⟨k0, v0⟩ := kv
    show assocLookup k ((if k0 = k' then (k0, f v0) else (k0, v0)) :: updateAssoc rest k' f) =
      assocLookup k ((k0, v0) :: rest)
    by_cases hk : k0 = k'
    · rw [if_pos hk]
      have hne : ¬(k0 = k) := by rw [hk]; exact h
      show (if k0 = k then some (f v0) else assocLookup k (updateAssoc rest k' f)) =
        (if k0 = k then some v0 else assocLookup k rest)
      rw [if_neg hne, if_neg hne]
      exact ih
    · rw [if_neg hk]
      show (if k0 = k then some v0 else assocLookup k (updateAssoc rest k' f)) =
        (if k0 = k then some v0 else assocLookup k rest)
      by_cases hk2 : k0 = k
      · rw [if_pos hk2, if_pos hk2]
      · rw [if_neg hk2, if_neg hk2]
        exact ih

theorem lookup_axiomOverride_of_not_ax {α : Type} (isAx : α → Bool) (base : α → ℚ)
    (entries : List (String × α)) (ev : List (String × ℚ)) (uid : String)
    (h : ∀ kv ∈ entries, isAx kv.2 = true → kv.1 ≠ uid) :
    assocLookup uid (axiomOverride isAx base entries ev) = assocLookup uid ev := by
  induction entries generalizing ev with
  | nil => rfl
  | cons kv rest ih =>
    unfold axiomOverride at *
    simp only [List.foldl_cons]
    by_cases hax : isAx kv.2
    · rw [if_pos hax]
      rw [ih (updateAssoc ev kv.1 (fun _ => base kv.2))
        (fun kv' h' hax' => h kv' (List.mem_cons_of_mem _ h') hax')]
      exact assocLookup_updateAssoc_ne ev uid kv.1 _ (h kv (List.mem_cons_self _ _) hax)
    · rw [if_neg hax]
      exact ih ev (fun kv' h' hax' => h kv' (List.mem_cons_of_mem _ h') hax')

theorem lookup_evidence_phase {α : Type}
    (entries : List (String × α)) (isAx : α → Bool) (base : α → ℚ) (f : α → ℚ)
    (uid : String) (u : α)
    (hnd : (entries.map Prod.fst).Nodup) (hmem : (uid, u) ∈ entries)
    (hax : isAx u = false) :
    assocLookup uid
        (axiomOverride isAx base entries (entries.map (fun kv => (kv.1, f kv.2)))) =
      some (f u) := by
  rw [lookup_axiomOverride_of_not_ax]
  · apply assocLookup_of_mem
    · simpa using hnd
    · exact List.mem_map.mpr ⟨(uid, u), hmem, rfl⟩
  · intro kv hkv hkvax hkeq
    have h2 : (uid, kv.2) ∈ entries := by
      rw [← hkeq]
      simpa using hkv
    have : kv.2 = u := lookup_keys_unique hnd h2 hmem
    rw [this, hax] at hkvax
    cases hkvax

/-- C2 (amended): in step 1 of `compute_warrant_gated_scores`, every
non-axiom claim unit's evidence support equals `_evidence_support` — the
average of its deduplicated signed contributions clamped to the FIXED
interval [-1,1]; the unit's configured `evidence_min`/`evidence_max` are
not consulted (only `compute_credibility` honours them).  Warrants use the
same fixed bounds. -/
theorem claim_C2_evidence_support_fixed_clamp (g : ArgumentGraph)
    (cfg : WarrantGatedConfig) (uid : String) (u : ArgumentUnit)
    (wid : String) (w : Warrant)
    (hndU : (g.units.map Prod.fst).Nodup) (hndW : (g.warrants.map Prod.fst).Nodup)
    (hmemU : (uid, u) ∈ g.units) (hmemW : (wid, w) ∈ g.warrants)
    (haxU : u.isAxiom = false) (haxW : w.isAxiom = false) :
    assocLookup uid (computeWarrantGatedScores g cfg).evidence_support =
        some (evidenceSupport g u.evidence u.evidence_ids) ∧
      assocLookup wid (computeWarrantGatedScores g cfg).warrant_evidence_support =
        some (evidenceSupport g w.evidence w.evidence_ids) ∧
      (-1 : ℚ) ≤ evidenceSupport g u.evidence u.evidence_ids ∧
      evidenceSupport g u.evidence u.evidence_ids ≤ 1 ∧
      (-1 : ℚ) ≤ evidenceSupport g w.evidence w.evidence_ids ∧
      evidenceSupport g w.evidence w.evidence_ids ≤ 1 := by
  have h1 : (computeWarrantGatedScores g cfg).evidence_support = claimEvidence g := rfl
  have h2 : (computeWarrantGatedScores g cfg).warrant_evidence_support = warrantEvidence g := rfl
  obtain ⟨b1, b2⟩ := evidenceSupport_bounds g u.evidence u.evidence_ids
  obtain ⟨b3, b4⟩ := evidenceSupport_bounds g w.evidence w.evidence_ids
  refine ⟨?_, ?_, b1, b2, b3, b4⟩
  · rw [h1]
    exact lookup_evidence_phase g.units (fun u => u.isAxiom) (fun u => axiomBase u.score)
      (fun u => evidenceSupport g u.evidence u.evidence_ids) uid u hndU hmemU haxU
  · rw [h2]
    exact lookup_evidence_phase g.warrants (fun w => w.isAxiom) (fun w => axiomBase w.score)
      (fun w => evidenceSupport g w.evidence w.evidence_ids) wid w hndW hmemW haxW

/-- Witness for C2 (amended) on the one-unit, one-warrant graph. -/
theorem claim_C2_evidence_support_fixed_clamp_witness :
    assocLookup "u1"
        (computeWarrantGatedScores sampleGraph defaultWarrantGatedConfig).evidence_support =
        some (evidenceSupport sampleGraph sampleUnit.evidence sampleUnit.evidence_ids) ∧
      assocLookup "w1"
        (computeWarrantGatedScores sampleGraph
          defaultWarrantGatedConfig).warrant_evidence_support =
        some (evidenceSupport sampleGraph sampleWarrant.evidence sampleWarrant.evidence_ids) ∧
      (-1 : ℚ) ≤ evidenceSupport sampleGraph sampleUnit.evidence sampleUnit.evidence_ids ∧
      evidenceSupport sampleGraph sampleUnit.evidence sampleUnit.evidence_ids ≤ 1 ∧
      (-1 : ℚ) ≤ evidenceSupport sampleGraph sampleWarrant.evidence sampleWarrant.evidence_ids ∧
      evidenceSupport sampleGraph sampleWarrant.evidence sampleWarrant.evidence_ids ≤ 1 :=
  claim_C2_evidence_support_fixed_clamp sampleGraph defaultWarrantGatedConfig
    "u1" sampleUnit "w1" sampleWarrant (by decide) (by decide)
    (by simp [sampleGraph]) (by simp [sampleGraph]) rfl rfl

theorem listMin_spec (x : ℝ) (xs : List ℝ) :
    listMin (x :: xs) ∈ x :: xs ∧ ∀ s ∈ x :: xs, listMin (x :: xs) ≤ s := by
  induction xs generalizing x with
  | nil => simp [listMin]
  | cons y ys ih =>
    have hfold : listMin (x :: y :: ys) = listMin (min x y :: ys) := rfl
    obtain ⟨hmem, hle⟩ := ih (min x y)
    constructor
    · rw [hfold]
      rcases List.mem_cons.mp hmem with heq | hmem'

      · rw [heq]
        rcases min_choice x y with hxy | hxy
        · rw [hxy]; exact List.mem_cons_self _ _
        · rw [hxy]; exact List.mem_cons_of_mem _ (List.mem_cons_self _ _)
      · exact List.mem_cons_of_mem _ (List.mem_cons_of_mem _ hmem')
    · intro s hs
      rw [hfold]
      rcases List.mem_cons.mp hs with heq | hs'
      · rw [heq]
        exact le_trans (hle _ (List.mem_cons_self _ _)) (min_le_left x y)
      · rcases List.mem_cons.mp hs' with heq' | hs''
        · rw [heq']
          exact le_trans (hle _ (List.mem_cons_self _ _)) (min_le_right x y)
        · exact hle s (List.mem_cons_of_mem _ hs'')

theorem listMax_spec (x : ℝ) (xs : List ℝ) :
    listMax (x :: xs) ∈ x :: xs ∧ ∀ s ∈ x :: xs, s ≤ listMax (x :: xs) := by
  induction xs generalizing x with
  | nil => simp [listMax]
  | cons y ys ih =>
    have hfold : listMax (x :: y :: ys) = listMax (max x y :: ys) := rfl
    obtain ⟨hmem, hle⟩ := ih (max x y)
    constructor
    · rw [hfold]
      rcases List.mem_cons.mp hmem with heq | hmem'
      · rw [heq]
        rcases max_choice x y with hxy | hxy
        · rw [hxy]; exact List.mem_cons_self _ _
        · rw [hxy]; exact List.mem_cons_of_mem _ (List.mem_cons_self _ _)
      · exact List.mem_cons_of_mem _ (List.mem_cons_of_mem _ hmem')
    · intro s hs
      rw [hfold]
      rcases List.mem_cons.mp hs with heq | hs'
      · rw [heq]
        exact le_trans (le_max_left x y) (hle _ (List.mem_cons_self _ _))
      · rcases List.mem_cons.mp hs' with heq' | hs''
        · rw [heq']
          exact le_trans (le_max_right x y) (hle _ (List.mem_cons_self _ _))
        · exact hle s (List.mem_cons_of_mem _ hs'')

/-- C5: the gate score of the `i`-th relation, keyed `e<i>`, is 0 when its
metadata marks it `gate_disabled`; otherwise 0/1 according to
`gate_required` when it cites no warrants; otherwise the minimum of its
cited warrants' current scores under AND and the maximum under OR. -/
theorem claim_C5_gate_scores (g : ArgumentGraph) (ws : List (String × ℝ))
    (cfg : WarrantGatedConfig) (i : Nat) (rel : Relation)
    (h : g.relations[i]? = some rel) :
    ∃ v, (gateScores g ws cfg)[i]? = some ("e" ++ toString i, v) ∧
      (pyTruthy ((assocLookup "gate_disabled" rel.metadata).getD PyVal.none) = true →
        v = 0) ∧
      (pyTruthy ((assocLookup "gate_disabled" rel.metadata).getD PyVal.none) = false →
        rel.warrant_ids = [] → v = (if cfg.gate_required then 0 else 1)) ∧
      (pyTruthy ((assocLookup "gate_disabled" rel.metadata).getD PyVal.none) = false →
        rel.warrant_ids ≠ [] → rel.gate_mode = "AND" →
        v ∈ rel.warrant_ids.map (fun wid => assocLookupD ws wid (1 / 2)) ∧
          ∀ s ∈ rel.warrant_ids.map (fun wid => assocLookupD ws wid (1 / 2)), v ≤ s) ∧
      (pyTruthy ((assocLookup "gate_disabled" rel.metadata).getD PyVal.none) = false →
        rel.warrant_ids ≠ [] → rel.gate_mode = "OR" →
        v ∈ rel.warrant_ids.map (fun wid => assocLookupD ws wid (1 / 2)) ∧
          ∀ s ∈ rel.warrant_ids.map (fun wid => assocLookupD ws wid (1 / 2)), s ≤ v) := by
  refine
    ⟨if pyTruthy ((assocLookup "gate_disabled" rel.metadata).getD PyVal.none) then 0
      else if rel.warrant_ids.isEmpty then (if cfg.gate_required then (0 : ℝ) else 1)
      else if rel.gate_mode = "AND" then
        listMin (rel.warrant_ids.map (fun wid => assocLookupD ws wid (1 / 2)))
      else listMax (rel.warrant_ids.map (fun wid => assocLookupD ws wid (1 / 2))),
      ?_, ?_, ?_, ?_, ?_⟩
  · unfold gateScores
    rw [List.getElem?_map, List.getElem?_enum, h]
    rfl
  · intro hdis
    simp [hdis]
  · intro hdis hempty
    simp [hdis, hempty]
  · intro hdis hne hand
    cases hwids : rel.warrant_ids with
    | nil => exact absurd hwids hne
    | cons w rest =>
      simpa [hdis, hwids, hand] using
        listMin_spec (assocLookupD ws w (1 / 2))
          (rest.map (fun wid => assocLookupD ws wid (1 / 2)))
  · intro hdis hne hor
    cases hwids : rel.warrant_ids with
    | nil => exact absurd hwids hne
    | cons w rest =>
      simpa [hdis, hwids, hor] using
        listMax_spec (assocLookupD ws w (1 / 2))
          (rest.map (fun wid => assocLookupD ws wid (1 / 2)))

/-- Witness for C5 at an AND-gated relation citing warrants scored 1/5 and
9/10 (the gate takes the minimum, 1/5). -/
theorem claim_C5_gate_scores_witness :
    ∃ v,
      (gateScores gateTestGraph [("wa", (1 / 5 : ℝ)), ("wb", 9 / 10)]
          defaultWarrantGatedConfig)[0]? = some ("e" ++ toString 0, v) ∧
      (pyTruthy ((assocLookup "gate_disabled" gateTestRelation.metadata).getD PyVal.none) =
          true → v = 0) ∧
      (pyTruthy ((assocLookup "gate_disabled" gateTestRelation.metadata).getD PyVal.none) =
          false → gateTestRelation.warrant_ids = [] →
          v = (if defaultWarrantGatedConfig.gate_required then 0 else 1)) ∧
      (pyTruthy ((assocLookup "gate_disabled" gateTestRelation.metadata).getD PyVal.none) =
          false → gateTestRelation.warrant_ids ≠ [] → gateTestRelation.gate_mode = "AND" →
          v ∈ gateTestRelation.warrant_ids.map
              (fun wid => assocLookupD [("wa", (1 / 5 : ℝ)), ("wb", 9 / 10)] wid (1 / 2)) ∧
            ∀ s ∈ gateTestRelation.warrant_ids.map
                (fun wid => assocLookupD [("wa", (1 / 5 : ℝ)), ("wb", 9 / 10)] wid (1 / 2)),
              v ≤ s) ∧
      (pyTruthy ((assocLookup "gate_disabled" gateTestRelation.metadata).getD PyVal.none) =
          false → gateTestRelation.warrant_ids ≠ [] → gateTestRelation.gate_mode = "OR" →
          v ∈ gateTestRelation.warrant_ids.map
              (fun wid => assocLookupD [("wa", (1 / 5 : ℝ)), ("wb", 9 / 10)] wid (1 / 2)) ∧
            ∀ s ∈ gateTestRelation.warrant_ids.map
                (fun wid => assocLookupD [("wa", (1 / 5 : ℝ)), ("wb", 9 / 10)] wid (1 / 2)),
              s ≤ v) :=
  claim_C5_gate_scores gateTestGraph [("wa", (1 / 5 : ℝ)), ("wb", 9 / 10)]
    defaultWarrantGatedConfig 0 gateTestRelation rfl

theorem pySigmoid_pos (z : ℝ) : 0 < pySigmoid z := by
  unfold pySigmoid
  positivity

theorem pySigmoid_lt_one (z : ℝ) : pySigmoid z < 1 := by
  unfold pySigmoid
  rw [div_lt_one (by positivity)]
  linarith [Real.exp_pos (-z)]

/-- Every value of the score map is an output of `_sigmoid`. -/
def SigmoidMap (m : List (String × ℝ)) : Prop := ∀ kv ∈ m, ∃ z, kv.2 = pySigmoid z

theorem sigmoidMap_initScores (cfg : WarrantGatedConfig) (ev : List (String × ℚ)) :
    SigmoidMap (initScores cfg ev) := by
  intro kv hkv
  unfold initScores at hkv
  obtain ⟨kv0, -, rfl⟩ := List.mem_map.mp hkv
  exact ⟨_, rfl⟩

theorem sigmoidMap_updateWarrants (g : ArgumentGraph) (wev : List (String × ℚ))
    (cs : List (String × ℝ)) (cfg : WarrantGatedConfig) :
    SigmoidMap (updateWarrants g wev cs cfg) := by
  intro kv hkv
  unfold updateWarrants at hkv
  obtain ⟨kv0, -, rfl⟩ := List.mem_map.mp hkv
  exact ⟨_, rfl⟩

theorem sigmoidMap_updateClaims (g : ArgumentGraph) (cev : List (String × ℚ))
    (cs gs : List (String × ℝ)) (cfg : WarrantGatedConfig) :
    SigmoidMap (updateClaims g cev cs gs cfg) := by
  intro kv hkv
  unfold updateClaims at hkv
  obtain ⟨kv0, -, rfl⟩ := List.mem_map.mp hkv
  exact ⟨_, rfl⟩

theorem wgLoop_sigmoid (g : ArgumentGraph) (cev wev : List (String × ℚ))
    (cfg : WarrantGatedConfig) (n : Nat)
    (cs ws : List (String × ℝ)) (ci wi : List (List (String × ℝ)))
    (hcs : SigmoidMap cs) (hws : SigmoidMap ws)
    (hci : ∀ m ∈ ci, SigmoidMap m) (hwi : ∀ m ∈ wi, SigmoidMap m) :
    SigmoidMap (wgLoop g cev wev cfg n cs ws ci wi).1 ∧
      SigmoidMap (wgLoop g cev wev cfg n cs ws ci wi).2.1 ∧
      (∀ m ∈ (wgLoop g cev wev cfg n cs ws ci wi).2.2.1, SigmoidMap m) ∧
      (∀ m ∈ (wgLoop g cev wev cfg n cs ws ci wi).2.2.2, SigmoidMap m) := by
  induction n generalizing cs ws ci wi with
  | zero => exact ⟨hcs, hws, hci, hwi⟩
  | succ n ih =>
    have hci' : ∀ m ∈ ci ++ [updateClaims g cev cs (gateScores g
        (updateWarrants g wev cs cfg) cfg) cfg], SigmoidMap m := by
      intro m hm
      rcases List.mem_append.mp hm with hm' | hm'
      · exact hci m hm'
      · rw [List.mem_singleton.mp hm']
        exact sigmoidMap_updateClaims g cev cs
          (gateScores g (updateWarrants g wev cs cfg) cfg) cfg
    have hwi' : ∀ m ∈ wi ++ [updateWarrants g wev cs cfg], SigmoidMap m := by
      intro m hm
      rcases List.mem_append.mp hm with hm' | hm'
      · exact hwi m hm'
      · rw [List.mem_singleton.mp hm']
        exact sigmoidMap_updateWarrants g wev cs cfg
    show SigmoidMap (wgLoop g cev wev cfg (n + 1) cs ws ci wi).1 ∧ _
    rw [wgLoop]
    split
    · exact ⟨sigmoidMap_updateClaims g cev cs
          (gateScores g (updateWarrants g wev cs cfg) cfg) cfg,
        sigmoidMap_updateWarrants g wev cs cfg, hci', hwi'⟩
    · exact ih _ _ _ _
        (sigmoidMap_updateClaims g cev cs
          (gateScores g (updateWarrants g wev cs cfg) cfg) cfg)
        (sigmoidMap_updateWarrants g wev cs cfg) hci' hwi'

/-- C10: every claim score and every warrant score produced by
`compute_warrant_gated_scores` — the initial scores, every per-iteration
snapshot, and the final scores — lies strictly between 0 and 1 because each
is the sigmoid of a real number. -/
theorem claim_C10_scores_in_unit_interval (g : ArgumentGraph) (cfg : WarrantGatedConfig)
    (m : List (String × ℝ)) (k : String) (s : ℝ)
    (hm : m ∈ (computeWarrantGatedScores g cfg).claim_iterations ∨
      m ∈ (computeWarrantGatedScores g cfg).warrant_iterations ∨
      m = (computeWarrantGatedScores g cfg).final_claim_scores ∨
      m = (computeWarrantGatedScores g cfg).final_warrant_scores)
    (hs : (k, s) ∈ m) : 0 < s ∧ s < 1 := by
  have hsingle : ∀ x : List (String × ℝ), SigmoidMap x → ∀ y ∈ [x], SigmoidMap y := by
    intro x hx y hy
    rw [List.mem_singleton.mp hy]
    exact hx
  obtain ⟨h1, h2, h3, h4⟩ :=
    wgLoop_sigmoid g (claimEvidence g) (warrantEvidence g) cfg cfg.max_iterations
      (initScores cfg (claimEvidence g)) (initScores cfg (warrantEvidence g))
      [initScores cfg (claimEvidence g)] [initScores cfg (warrantEvidence g)]
      (sigmoidMap_initScores cfg (claimEvidence g)) (sigmoidMap_initScores cfg (warrantEvidence g))
      (hsingle _ (sigmoidMap_initScores cfg (claimEvidence g)))
      (hsingle _ (sigmoidMap_initScores cfg (warrantEvidence g)))
  have hsig : ∃ z, s = pySigmoid z := by
    rcases hm with hm | hm | hm | hm
    · exact h3 m hm (k, s) hs
    · exact h4 m hm (k, s) hs
    · rw [hm] at hs
      exact h1 (k, s) hs
    · rw [hm] at hs
      exact h2 (k, s) hs
  obtain ⟨z, hz⟩ := hsig
  rw [hz]
  exact ⟨pySigmoid_pos z, pySigmoid_lt_one z⟩

/-- Witness for C10: the initial score of the sample graph's only claim. -/
theorem claim_C10_scores_in_unit_interval_witness :
    0 < pySigmoid ((1 : ℝ) * ((0 : ℚ) : ℝ)) ∧ pySigmoid ((1 : ℝ) * ((0 : ℚ) : ℝ)) < 1 :=
  claim_C10_scores_in_unit_interval sampleGraph ⟨1, 1, 0, 1 / 10000, true, 4⟩
    [("u1", pySigmoid ((1 : ℝ) * ((0 : ℚ) : ℝ)))] "u1" (pySigmoid ((1 : ℝ) * ((0 : ℚ) : ℝ)))
    (Or.inl (List.mem_singleton.mpr rfl)) (List.mem_singleton.mpr rfl)

end Arglib
